import Mathlib

/-!
Verification of the edge forecasting services (`services/forecastingApi/app.py`
and `services/model-updater/app.py`).

The embedding models pandas frames as column-oriented tables of cells over ℚ,
timestamps as integer epoch hours, and the S3 / Redis / filesystem effects of
the cache code as explicit environment records.  Every definition mirrors the
corresponding Python function; theorems at the end settle the specification
claims about them.
-/

set_option autoImplicit false

/-- One pandas cell: missing (NaN), a numeric value, or a string value. -/
inductive Cell where
  | na
  | num (q : ℚ)
  | str (s : String)
deriving DecidableEq, Repr, Inhabited

/-- A pandas DataFrame with a dedicated datetime `timestamp` column (epoch
hours) plus named data columns stored as an association list. -/
structure DataFrame where
  timestamps : List Int
  cols : List (String × List Cell)
deriving DecidableEq, Repr, Inhabited

/-- Number of rows of the frame (`len(df)`). -/
def rowCount (df : DataFrame) : Nat := df.timestamps.length

/-- First column with the given name, if present. -/
def getCol (df : DataFrame) (name : String) : Option (List Cell) :=
  (df.cols.find? (fun p => p.1 = name)).map (·.2)

/-- Column lookup with empty default. -/
def getColD (df : DataFrame) (name : String) : List Cell :=
  (getCol df name).getD []

/-- `name in df.columns`. -/
def hasCol (df : DataFrame) (name : String) : Bool :=
  (getCol df name).isSome

/-- Replace the first column of this name, or append a new one
(`df[name] = v`). -/
def setColList : List (String × List Cell) → String → List Cell → List (String × List Cell)
  | [], name, v => [(name, v)]
  | (k, c) :: rest, name, v =>
    if k = name then (name, v) :: rest else (k, c) :: setColList rest name v

/-- Column assignment on a frame. -/
def setCol (df : DataFrame) (name : String) (v : List Cell) : DataFrame :=
  ⟨df.timestamps, setColList df.cols name v⟩

/-- A frame is well formed at `n` rows when the timestamp column and every data
column have length `n`. -/
def WF (n : Nat) (df : DataFrame) : Prop :=
  df.timestamps.length = n ∧ ∀ p ∈ df.cols, p.2.length = n

/-! ### Forecast assembler (`generate_forecast` steps 7, lines 509-532) -/

/-- One dated forecast point of the response. -/
structure ForecastPoint where
  timestamp : Int
  hour_ahead : Nat
  values : List (String × ℚ)
deriving DecidableEq, Repr, Inhabited

/-- The response-assembly loop of `generate_forecast`: for
`i in range(min(forecast_hours, len(predictions)))` take
`pred = predictions[-(len(predictions)-i)]` (the `else latest_prediction`
branch is unreachable inside the loop), stamp `last_timestamp + (i+1)` hours
and `hour_ahead = i+1`, and pair each available target with the prediction
component at its position. -/
def generate_forecast_points (predictions : List (List ℚ)) (last_timestamp : Int)
    (forecast_hours : Nat) (targets : List String) : List ForecastPoint :=
  let n := predictions.length
  let latest_prediction := predictions.getD (n - 1) []
  (List.range (min forecast_hours n)).map (fun i =>
    let pred := if i < n then predictions.getD (n - (n - i)) [] else latest_prediction
    { timestamp := last_timestamp + (i : Int) + 1
      hour_ahead := i + 1
      values := targets.zip pred })

theorem generate_forecast_points_length (predictions : List (List ℚ)) (T : Int)
    (H : Nat) (targets : List String) :
    (generate_forecast_points predictions T H targets).length = min H predictions.length := by
  simp [generate_forecast_points]

theorem generate_forecast_points_getD (predictions : List (List ℚ)) (T : Int)
    (H : Nat) (targets : List String) (i : Nat) (hi : i < min H predictions.length) :
    (generate_forecast_points predictions T H targets).getD i default =
      { timestamp := T + (i : Int) + 1
        hour_ahead := i + 1
        values := targets.zip (predictions.getD i []) } := by
  have hn : i < predictions.length := lt_of_lt_of_le hi (min_le_right _ _)
  have hsub : predictions.length - (predictions.length - i) = i :=
    Nat.sub_sub_self (Nat.le_of_lt hn)
  unfold generate_forecast_points
  rw [List.getD_eq_getElem?_getD]
  rw [List.getElem?_map]
  rw [List.getElem?_range hi]
  simp [hn, hsub]

/-! ### Stable sort by timestamp (`df.sort_values('timestamp')`) -/

/-- Insert index `i` into an index list sorted by timestamp, after any equal
timestamps (stable). -/
def insertIdx (ts : List Int) (i : Nat) : List Nat → List Nat
  | [] => [i]
  | j :: js =>
    if ts.getD i 0 < ts.getD j 0 then i :: j :: js else j :: insertIdx ts i js

/-- Stable insertion sort of row indices by timestamp value. -/
def sortIdx (ts : List Int) (is : List Nat) : List Nat :=
  is.foldl (fun acc i => insertIdx ts i acc) []

/-- Reorder a cell column along a row-index permutation. -/
def applyIdx (idx : List Nat) (cells : List Cell) : List Cell :=
  idx.map (fun i => cells.getD i Cell.na)

/-- `df.sort_values('timestamp')`: permute every column (including the
timestamp column itself) by the stable sort order of the timestamps. -/
def sortFrame (df : DataFrame) : DataFrame :=
  let idx := sortIdx df.timestamps (List.range df.timestamps.length)
  ⟨idx.map (fun i => df.timestamps.getD i 0),
   df.cols.map (fun p => (p.1, applyIdx idx p.2))⟩

theorem length_insertIdx (ts : List Int) (i : Nat) (js : List Nat) :
    (insertIdx ts i js).length = js.length + 1 := by
  induction js with
  | nil => rfl
  | cons j js ih =>
    simp only [insertIdx]
    split
    · simp
    · simp [ih]

theorem length_foldl_insertIdx (ts : List Int) (is : List Nat) :
    ∀ acc : List Nat,
      (is.foldl (fun acc i => insertIdx ts i acc) acc).length = acc.length + is.length := by
  induction is with
  | nil => intro acc; simp
  | cons i is ih =>
    intro acc
    rw [List.foldl_cons, ih, length_insertIdx, List.length_cons]
    omega

theorem length_sortIdx (ts : List Int) (is : List Nat) :
    (sortIdx ts is).length = is.length := by
  simpa using length_foldl_insertIdx ts is []

theorem mem_insertIdx (ts : List Int) (i : Nat) (js : List Nat) (j : Nat)
    (hj : j ∈ insertIdx ts i js) : j = i ∨ j ∈ js := by
  induction js with
  | nil => simpa [insertIdx] using hj
  | cons k ks ih =>
    simp only [insertIdx] at hj
    revert hj
    split
    · intro hj
      rcases List.mem_cons.mp hj with h1 | h1
      · exact Or.inl h1
      · exact Or.inr h1
    · intro hj
      rcases List.mem_cons.mp hj with h1 | h1
      · exact Or.inr (by simp [h1])
      · rcases ih h1 with h2 | h2
        · exact Or.inl h2
        · exact Or.inr (by simp [h2])

theorem mem_foldl_insertIdx (ts : List Int) (is : List Nat) :
    ∀ acc : List Nat, ∀ j ∈ is.foldl (fun acc i => insertIdx ts i acc) acc,
      j ∈ acc ∨ j ∈ is := by
  induction is with
  | nil => intro acc j h; exact Or.inl h
  | cons i is ih =>
    intro acc j h
    rcases ih (insertIdx ts i acc) j h with h1 | h1
    · rcases mem_insertIdx ts i acc j h1 with h2 | h2
      · exact Or.inr (by simp [h2])
      · exact Or.inl h2
    · exact Or.inr (by simp [h1])

theorem mem_sortIdx (ts : List Int) (is : List Nat) (j : Nat)
    (hj : j ∈ sortIdx ts is) : j ∈ is := by
  rcases mem_foldl_insertIdx ts is [] j hj with h1 | h1
  · simp at h1
  · exact h1

theorem rowCount_sortFrame (df : DataFrame) : rowCount (sortFrame df) = rowCount df := by
  simp [rowCount, sortFrame, length_sortIdx]

/-! ### Column operations used by the feature pipeline -/

/-- Numeric view of a cell, `none` for NaN or non-numeric content. -/
def cellNum : Cell → Option ℚ
  | Cell.num q => some q
  | _ => none

/-- The numeric, non-missing values of a column (pandas reductions skip NaN). -/
def numsOf (cells : List Cell) : List ℚ := cells.filterMap cellNum

/-- `series.mean()`: mean of the non-missing values, NaN when there are
none. -/
def meanCell (cells : List Cell) : Cell :=
  let ns := numsOf cells
  if ns.length = 0 then Cell.na else Cell.num (ns.sum / ns.length)

/-- `series.std()`: sample standard deviation, NaN with fewer than two
non-missing values.  The irrational square root is abstracted by the
parameter `stdFn`, which is applied to the non-missing values. -/
def stdCell (stdFn : List ℚ → ℚ) (cells : List Cell) : Cell :=
  let ns := numsOf cells
  if 2 ≤ ns.length then Cell.num (stdFn ns) else Cell.na

/-- `series.min()`: NaN-skipping minimum, NaN for an all-missing column. -/
def minCell (cells : List Cell) : Cell :=
  match numsOf cells with
  | [] => Cell.na
  | q :: qs => Cell.num (qs.foldl min q)

/-- `series.max()`: NaN-skipping maximum, NaN for an all-missing column. -/
def maxCell (cells : List Cell) : Cell :=
  match numsOf cells with
  | [] => Cell.na
  | q :: qs => Cell.num (qs.foldl max q)

/-- `series.shift(k)`: prepend `k` missing cells and drop the tail. -/
def shiftCol (k : Nat) (cells : List Cell) : List Cell :=
  List.replicate (min k cells.length) Cell.na ++ cells.take (cells.length - k)

/-- `series.rolling(window=w, min_periods=1).mean()`: per row the NaN-skipping
mean over the trailing window of up to `w` rows. -/
def rollingMeanCol (w : Nat) (cells : List Cell) : List Cell :=
  (List.range cells.length).map (fun i =>
    meanCell ((cells.take (i + 1)).drop (i + 1 - w)))

/-- `series.rolling(window=w, min_periods=1).std()`: per row the sample
standard deviation over the trailing window, NaN with fewer than two
non-missing values in the window. -/
def rollingStdCol (stdFn : List ℚ → ℚ) (w : Nat) (cells : List Cell) : List Cell :=
  (List.range cells.length).map (fun i =>
    stdCell stdFn ((cells.take (i + 1)).drop (i + 1 - w)))

/-- `df.groupby(keyCol)[valCol].transform('mean')`: per row the NaN-skipping
mean of the values whose key cell equals this row's key cell; rows with a
missing key get NaN (pandas drops NaN group keys). -/
def groupMeanCol (keys vals : List Cell) : List Cell :=
  keys.map (fun k =>
    if k = Cell.na then Cell.na
    else meanCell ((keys.zip vals).filterMap
      (fun p => if p.1 = k then some p.2 else none)))

/-- `series + c`: cellwise addition of a scalar, NaN-propagating. -/
def addConstCol (c : ℚ) (cells : List Cell) : List Cell :=
  cells.map (fun cell =>
    match cell with
    | Cell.num q => Cell.num (q + c)
    | _ => Cell.na)

/-- Cellwise division with NaN propagation. -/
def cellDiv : Cell → Cell → Cell
  | Cell.num a, Cell.num b => Cell.num (a / b)
  | _, _ => Cell.na

/-- `seriesA / seriesB`: cellwise division of two columns. -/
def colDiv (a b : List Cell) : List Cell :=
  (a.zip b).map (fun p => cellDiv p.1 p.2)

/-- Constant column (pandas scalar broadcast). -/
def constCol (n : Nat) (c : Cell) : List Cell := List.replicate n c

/-! ### Calendar features (`dt.hour`, `dt.dayofweek`, `dt.month`,
`is_weekend`) over epoch-hour timestamps -/

/-- Hour of day of an epoch-hour timestamp. -/
def hourOf (t : Int) : Int := t.emod 24

/-- Day of week (Monday = 0, pandas convention; epoch day 0 was a
Thursday). -/
def dayOfWeekOf (t : Int) : Int := (t.ediv 24 + 3).emod 7

/-- Civil month (1-12) of a day count since 1970-01-01, by the standard
days-to-civil conversion. -/
def monthOfDays (z : Int) : Int :=
  let z' := z + 719468
  let era := (if 0 ≤ z' then z' else z' - 146096).ediv 146097
  let doe := z' - era * 146097
  let yoe := (doe - doe.ediv 1460 + doe.ediv 36524 - doe.ediv 146096).ediv 365
  let doy := doe - (365 * yoe + yoe.ediv 4 - yoe.ediv 100)
  let mp := (5 * doy + 2).ediv 153
  if mp < 10 then mp + 3 else mp - 9

/-- Month of an epoch-hour timestamp. -/
def monthOf (t : Int) : Int := monthOfDays (t.ediv 24)

/-! ### Fitted label encoders (`encoders` dict from the model bundle) -/

/-- A fitted sklearn-style label encoder: the class list learned in
training. -/
structure LabelEncoder where
  classes : List String
deriving DecidableEq, Repr

/-- `encoder.transform(values)`: every value must be a known class, else the
call raises (modelled as `none`); on success each value maps to its class
index. -/
def LabelEncoder.transform (e : LabelEncoder) (vals : List String) : Option (List ℚ) :=
  if vals.all (fun v => e.classes.contains v) then
    some (vals.map (fun v => ((e.classes.indexOf v : Nat) : ℚ)))
  else none

/-- The encoders mapping of a model bundle; a missing key raises on access
(modelled as `none`). -/
structure Encoders where
  customer_encoder : Option LabelEncoder
  manufacturer_encoder : Option LabelEncoder
  region_encoder : Option LabelEncoder
deriving DecidableEq, Repr

/-- Access an encoder and transform, `none` when the key is absent or the
transform raises — both are caught by the surrounding `except`. -/
def encodeWith (enc : Option LabelEncoder) (vals : List String) : Option (List ℚ) :=
  enc.bind (fun e => e.transform vals)

/-- `series.astype(str)` on one cell: NaN prints as "nan", numbers by their
decimal representation. -/
def cellToString : Cell → String
  | Cell.na => "nan"
  | Cell.num q => toString q
  | Cell.str s => s

/-- String view of a column, as fed to an encoder. -/
def colStrings (cells : List Cell) : List String := cells.map cellToString

/-! ### Feature preparation (`prepare_features_for_inference`,
lines 256-336) -/

/-- Lines 265-267: attach the customer id column when absent. -/
def addCustomerIdCol (df : DataFrame) (customer_id : String) : DataFrame :=
  if hasCol df "customer_id" then df
  else setCol df "customer_id" (constCol (rowCount df) (Cell.str customer_id))

/-- Lines 269-274: encode the customer id with the fitted encoder, defaulting
the whole column to 0 when the encoder is missing or raises. -/
def encodeCustomerCol (df : DataFrame) (encoders : Encoders) : DataFrame :=
  match encodeWith encoders.customer_encoder (colStrings (getColD df "customer_id")) with
  | some qs => setCol df "customer_encoded" (qs.map Cell.num)
  | none => setCol df "customer_encoded" (constCol (rowCount df) (Cell.num 0))

/-- Lines 277-283: encode the manufacturer column when present, defaulting to
0 when the column is absent or the encoder is missing or raises. -/
def encodeManufacturerCol (df : DataFrame) (encoders : Encoders) : DataFrame :=
  if hasCol df "manufacturer" then
    match encodeWith encoders.manufacturer_encoder (colStrings (getColD df "manufacturer")) with
    | some qs => setCol df "manufacturer_encoded" (qs.map Cell.num)
    | none => setCol df "manufacturer_encoded" (constCol (rowCount df) (Cell.num 0))
  else setCol df "manufacturer_encoded" (constCol (rowCount df) (Cell.num 0))

/-- Lines 285-291: encode the region column, same fallback policy as the
manufacturer column. -/
def encodeRegionCol (df : DataFrame) (encoders : Encoders) : DataFrame :=
  if hasCol df "region" then
    match encodeWith encoders.region_encoder (colStrings (getColD df "region")) with
    | some qs => setCol df "region_encoded" (qs.map Cell.num)
    | none => setCol df "region_encoded" (constCol (rowCount df) (Cell.num 0))
  else setCol df "region_encoded" (constCol (rowCount df) (Cell.num 0))

/-- Lines 293-297: calendar columns derived from the timestamp. -/
def addCalendarCols (df : DataFrame) : DataFrame :=
  let df1 := setCol df "hour" (df.timestamps.map (fun t => Cell.num (hourOf t : ℚ)))
  let df2 := setCol df1 "day_of_week" (df.timestamps.map (fun t => Cell.num (dayOfWeekOf t : ℚ)))
  let df3 := setCol df2 "month" (df.timestamps.map (fun t => Cell.num (monthOf t : ℚ)))
  setCol df3 "is_weekend" (df.timestamps.map (fun t =>
    Cell.num (if 5 ≤ dayOfWeekOf t then 1 else 0)))

/-- The epsilon guard of the two ratio features (`1e-8`). -/
def ratioEps : ℚ := 1 / 100000000

/-- Lines 300-316: customer-level statistics, the manufacturer/regional
proxies and the two ratio features. -/
def kwhStatsBlock (stdFn : List ℚ → ℚ) (df0 : DataFrame) : DataFrame :=
  let n := rowCount df0
  let kwh := getColD df0 "kWh"
  let df1 := setCol df0 "customer_kwh_mean" (constCol n (meanCell kwh))
  let df2 := setCol df1 "customer_kwh_std" (constCol n (stdCell stdFn kwh))
  let df3 := setCol df2 "customer_kwh_min" (constCol n (minCell kwh))
  let df4 := setCol df3 "customer_kwh_max" (constCol n (maxCell kwh))
  let df5 := setCol df4 "mfg_kwh_mean" (getColD df4 "customer_kwh_mean")
  let df6 := setCol df5 "mfg_kwh_std" (getColD df5 "customer_kwh_std")
  let df7 := setCol df6 "mfg_kwh_min" (getColD df6 "customer_kwh_min")
  let df8 := setCol df7 "mfg_kwh_max" (getColD df7 "customer_kwh_max")
  let df9 := setCol df8 "regional_hourly_kwh_mean"
    (groupMeanCol (getColD df8 "hour") (getColD df8 "kWh"))
  let df10 := setCol df9 "kwh_vs_customer_mean"
    (colDiv (getColD df9 "kWh") (addConstCol ratioEps (getColD df9 "customer_kwh_mean")))
  setCol df10 "kwh_vs_mfg_mean"
    (colDiv (getColD df10 "kWh") (addConstCol ratioEps (getColD df10 "mfg_kwh_mean")))

/-- Lines 319-325 after the sort: the 1-hour lag and the 24-hour lag with its
frame-mean fallback for short frames. -/
def kwhLagBlock (df12 : DataFrame) : DataFrame :=
  let df13 := setCol df12 "kwh_lag_1h" (shiftCol 1 (getColD df12 "kWh"))
  if 24 < rowCount df13 then
    setCol df13 "kwh_lag_24h" (shiftCol 24 (getColD df13 "kWh"))
  else
    setCol df13 "kwh_lag_24h" (constCol (rowCount df13) (meanCell (getColD df13 "kWh")))

/-- Lines 327-329: the 6-hour rolling mean and standard deviation. -/
def kwhRollBlock (stdFn : List ℚ → ℚ) (df14 : DataFrame) : DataFrame :=
  let df15 := setCol df14 "kwh_rolling_mean_6h" (rollingMeanCol 6 (getColD df14 "kWh"))
  setCol df15 "kwh_rolling_std_6h" (rollingStdCol stdFn 6 (getColD df15 "kWh"))

/-- Lines 300-329, the `'kWh' in df.columns` branch: statistics, the
timestamp sort of line 319, lag features, and rolling features. -/
def addKwhBlock (stdFn : List ℚ → ℚ) (df0 : DataFrame) : DataFrame :=
  kwhRollBlock stdFn (kwhLagBlock (sortFrame (kwhStatsBlock stdFn df0)))

/-- `prepare_features_for_inference` up to (but excluding) the final
`fillna` chain of line 332. -/
def prepareBeforeFill (stdFn : List ℚ → ℚ) (data_df : DataFrame)
    (customer_id : String) (encoders : Encoders) : DataFrame :=
  let df := addCustomerIdCol data_df customer_id
  let df := encodeCustomerCol df encoders
  let df := encodeManufacturerCol df encoders
  let df := encodeRegionCol df encoders
  let df := addCalendarCols df
  if hasCol df "kWh" then addKwhBlock stdFn df else df

/-- `series.fillna(method='ffill')`: carry the last non-missing cell
forward. -/
def ffillAux (prev : Cell) : List Cell → List Cell
  | [] => []
  | Cell.na :: cs => prev :: ffillAux prev cs
  | c :: cs => c :: ffillAux c cs

/-- Forward fill of one column. -/
def ffillCol (cells : List Cell) : List Cell := ffillAux Cell.na cells

/-- `series.fillna(method='bfill')`: carry the next non-missing cell
backward. -/
def bfillCol (cells : List Cell) : List Cell := (ffillAux Cell.na cells.reverse).reverse

/-- `series.fillna(0)`: replace any still-missing cell by 0. -/
def zfillCol (cells : List Cell) : List Cell :=
  cells.map (fun c => if c = Cell.na then Cell.num 0 else c)

/-- Line 332: `df.fillna(method='ffill').fillna(method='bfill').fillna(0)`,
applied per column. -/
def fillnaFrame (df : DataFrame) : DataFrame :=
  ⟨df.timestamps, df.cols.map (fun p => (p.1, zfillCol (bfillCol (ffillCol p.2))))⟩

/-- `prepare_features_for_inference(data_df, customer_id, encoders)`. -/
def prepare_features_for_inference (stdFn : List ℚ → ℚ) (data_df : DataFrame)
    (customer_id : String) (encoders : Encoders) : DataFrame :=
  fillnaFrame (prepareBeforeFill stdFn data_df customer_id encoders)

/-! ### Sequence windower (`create_sequences_for_inference`, lines 338-374) -/

/-- Errors raised by the windower: `ValueError("Insufficient data ...")` and
`ValueError("No valid sequences created")`. -/
inductive SeqError where
  | insufficientData
  | noValidSequences
deriving DecidableEq, Repr

/-- All cells of one window row must be numeric; a NaN (or a non-numeric
cell, which would make the `values`/`isnan` step raise into the caught
exception) discards the window. -/
def rowNums (cells : List Cell) : Option (List ℚ) := cells.mapM cellNum

/-- Candidate window of `L` rows starting at row `start`, restricted to
`feature_cols`; `none` when any cell is missing or non-numeric (covering both
the `np.isnan(...).any()` check and the caught per-window exception, e.g. an
absent feature column). -/
def extractWindow (df : DataFrame) (feature_cols : List String) (start L : Nat) :
    Option (List (List ℚ)) :=
  ((List.range L).map (fun r =>
    feature_cols.map (fun c => (getColD df c).getD (start + r) Cell.na))).mapM rowNums

/-- The `for i in range(seq_length, len(df) + 1)` loop body: keep the windows
that extract cleanly, in order. -/
def seqLoop (df : DataFrame) (feature_cols : List String) (L : Nat) :
    List Nat → List (List (List ℚ))
  | [] => []
  | i :: is =>
    match extractWindow df feature_cols (i - L) L with
    | some w => w :: seqLoop df feature_cols L is
    | none => seqLoop df feature_cols L is

/-- `create_sequences_for_inference(data_df, feature_cols, seq_length)`. -/
def create_sequences_for_inference (data_df : DataFrame) (feature_cols : List String)
    (seq_length : Nat) : Except SeqError (List (List (List ℚ))) :=
  let df := sortFrame data_df
  if rowCount df < seq_length then Except.error SeqError.insufficientData
  else
    let seqs := seqLoop df feature_cols seq_length
      (List.range' seq_length (rowCount df + 1 - seq_length))
    if seqs.isEmpty then Except.error SeqError.noValidSequences
    else Except.ok seqs

/-! ### Recent-data selection (`get_recent_customer_data`, lines 226-237) -/

/-- One raw time-series record of the customer's stored series. -/
structure TSRecord where
  ts : Int
  load : ℚ
deriving DecidableEq, Repr, Inhabited

/-- Stable insertion into a record list sorted by timestamp. -/
def insertRec (r : TSRecord) : List TSRecord → List TSRecord
  | [] => [r]
  | s :: ss => if r.ts < s.ts then r :: s :: ss else s :: insertRec r ss

/-- `df.sort_values('timestamp')` on raw records. -/
def sortRecs (rs : List TSRecord) : List TSRecord :=
  rs.foldl (fun acc r => insertRec r acc) []

/-- Lines 226-237 of `get_recent_customer_data`: sort the stored series, keep
the records inside the recent window `[now - hours, ∞)`, and fall back to
`df.tail(hours)` when that filter is empty. -/
def get_recent_customer_data_select (records : List TSRecord) (now : Int)
    (hours : Nat) : List TSRecord :=
  let df := sortRecs records
  let cutoff := now - (hours : Int)
  let recent := df.filter (fun r => decide (cutoff ≤ r.ts))
  if recent.isEmpty then df.drop (df.length - hours) else recent

/-! ### Tiered model loading (`load_customer_model`, lines 93-178) -/

/-- A loaded model bundle; the keras model, the encoders object and the
optional config are opaque handles here. -/
structure Bundle where
  model : Nat
  encoders : Nat
  config : Option Nat
deriving DecidableEq, Repr

/-- The `latest_model.json` registry document. -/
structure Registry where
  model_path : String
  encoders_path : String
  config_path : Option String
deriving DecidableEq, Repr

/-- Outcome environment for the S3 cold-store interactions of one load:
which blob operations succeed and what the deserialized objects are. -/
structure S3Env where
  available : Bool
  registry : Option Registry
  modelDownloadOk : Bool
  modelLoadOk : Bool
  modelObj : Nat
  encodersDownloadOk : Bool
  encodersLoadOk : Bool
  encodersObj : Nat
  configFetch : Option Nat
deriving DecidableEq, Repr

/-- The cache state visible to one `load_customer_model` call. -/
structure CacheState where
  redisAvailable : Bool
  redisModel : Option Bundle
  redisWriteOk : Bool
  mem : Option Bundle
deriving DecidableEq, Repr

/-- Cache tiers, in the order the code touches them. -/
inductive Tier where
  | distributed
  | memory
  | cold
deriving DecidableEq, Repr

/-- Errors `load_customer_model` can raise. -/
inductive LoadErr where
  | s3Unavailable
  | coldLoadFailed
deriving DecidableEq, Repr

instance {ε α : Type} [DecidableEq ε] [DecidableEq α] : DecidableEq (Except ε α) := by
  intro a b
  cases a <;> cases b
  case error.error e1 e2 =>
    exact if h : e1 = e2 then isTrue (by rw [h]) else isFalse (by simp [h])
  case ok.ok a1 a2 =>
    exact if h : a1 = a2 then isTrue (by rw [h]) else isFalse (by simp [h])
  all_goals exact isFalse (by simp)

/-- Everything observable about one `load_customer_model` call: its result,
the tiers it consulted in order, the caches afterwards, and the `/tmp` files
left behind. -/
structure LoadOutcome where
  result : Except LoadErr Bundle
  consulted : List Tier
  memAfter : Option Bundle
  redisAfter : Option Bundle
  tempFiles : List String
deriving DecidableEq, Repr

/-- Temporary path of the downloaded model weights. -/
def modelTmp (customer_id : String) : String := "/tmp/model_" ++ customer_id ++ ".h5"

/-- Temporary path of the downloaded encoders. -/
def encodersTmp (customer_id : String) : String := "/tmp/encoders_" ++ customer_id ++ ".pkl"

/-- `load_customer_model(customer_id)`: Redis tier first (lines 99-108),
then the process-memory tier (lines 110-113), then the S3 cold path
(lines 115-178) with write-through to memory and Redis and temp-file cleanup
only at the end of the `try` block. -/
def load_customer_model (customer_id : String) (st : CacheState) (env : S3Env) :
    LoadOutcome :=
  if st.redisAvailable ∧ (st.redisModel).isSome then
    { result := Except.ok (st.redisModel.getD ⟨0, 0, none⟩)
      consulted := [Tier.distributed]
      memAfter := st.mem
      redisAfter := st.redisModel
      tempFiles := [] }
  else
    let consulted0 := if st.redisAvailable then [Tier.distributed] else []
    match st.mem with
    | some b =>
      { result := Except.ok b
        consulted := consulted0 ++ [Tier.memory]
        memAfter := st.mem
        redisAfter := st.redisModel
        tempFiles := [] }
    | none =>
      let consulted := consulted0 ++ [Tier.memory, Tier.cold]
      if ¬ env.available then
        { result := Except.error LoadErr.s3Unavailable
          consulted := consulted
          memAfter := none
          redisAfter := st.redisModel
          tempFiles := [] }
      else
        match env.registry with
        | none =>
          { result := Except.error LoadErr.coldLoadFailed
            consulted := consulted
            memAfter := none
            redisAfter := st.redisModel
            tempFiles := [] }
        | some reg =>
          if ¬ env.modelDownloadOk then
            { result := Except.error LoadErr.coldLoadFailed
              consulted := consulted
              memAfter := none
              redisAfter := st.redisModel
              tempFiles := [] }
          else if ¬ env.modelLoadOk then
            { result := Except.error LoadErr.coldLoadFailed
              consulted := consulted
              memAfter := none
              redisAfter := st.redisModel
              tempFiles := [modelTmp customer_id] }
          else if ¬ env.encodersDownloadOk then
            { result := Except.error LoadErr.coldLoadFailed
              consulted := consulted
              memAfter := none
              redisAfter := st.redisModel
              tempFiles := [modelTmp customer_id] }
          else if ¬ env.encodersLoadOk then
            { result := Except.error LoadErr.coldLoadFailed
              consulted := consulted
              memAfter := none
              redisAfter := st.redisModel
              tempFiles := [modelTmp customer_id, encodersTmp customer_id] }
          else if reg.config_path.isSome ∧ env.configFetch.isNone then
            { result := Except.error LoadErr.coldLoadFailed
              consulted := consulted
              memAfter := none
              redisAfter := st.redisModel
              tempFiles := [modelTmp customer_id, encodersTmp customer_id] }
          else
            let bundle : Bundle :=
              ⟨env.modelObj, env.encodersObj,
               if reg.config_path.isSome then env.configFetch else none⟩
            { result := Except.ok bundle
              consulted := consulted
              memAfter := some bundle
              redisAfter :=
                if st.redisAvailable ∧ st.redisWriteOk then some bundle else st.redisModel
              tempFiles := [] }

/-! ### Model freshness (`check_model_freshness`, model-updater lines
186-209) -/

/-- The reasons the freshness check can report (the code's strings
'Redis not available', 'No cached model', 'Model older than 7 days',
'Model is fresh' and the caught-exception `Error: ...` path). -/
inductive FreshReason where
  | redisNotAvailable
  | noCachedModel
  | olderThan7Days
  | fresh
  | errorReason
deriving DecidableEq, Repr

/-- Result record of `check_model_freshness`. -/
structure FreshResult where
  needs_update : Bool
  reason : FreshReason
deriving DecidableEq, Repr

/-- Hours in the 7-day staleness threshold (`timedelta(days=7)`). -/
def sevenDaysHours : Int := 7 * 24

/-- `check_model_freshness(customer_id)`: the cached record is `none` when
Redis has no entry, `some none` when the entry exists but its `updated_at`
does not parse (the caught-exception path), and `some (some t)` for a
well-formed entry loaded at epoch hour `t`. -/
def check_model_freshness (redisAvailable : Bool)
    (cached : Option (Option Int)) (now : Int) : FreshResult :=
  if ¬ redisAvailable then ⟨true, FreshReason.redisNotAvailable⟩
  else
    match cached with
    | none => ⟨true, FreshReason.noCachedModel⟩
    | some none => ⟨true, FreshReason.errorReason⟩
    | some (some t) =>
      if sevenDaysHours < now - t then ⟨true, FreshReason.olderThan7Days⟩
      else ⟨false, FreshReason.fresh⟩

/-! ### Frame lemmas -/

theorem timestamps_setCol (df : DataFrame) (name : String) (v : List Cell) :
    (setCol df name v).timestamps = df.timestamps := rfl

theorem rowCount_setCol (df : DataFrame) (name : String) (v : List Cell) :
    rowCount (setCol df name v) = rowCount df := rfl

theorem find_setColList_same (l : List (String × List Cell)) (name : String)
    (v : List Cell) :
    (setColList l name v).find? (fun p => p.1 = name) = some (name, v) := by
  induction l with
  | nil => simp [setColList]
  | cons kc rest ih =>
    obtain ⟨k, c⟩ := kc
    simp only [setColList]
    by_cases h : k = name
    · simp [h]
    · simp only [if_neg h]
      rw [List.find?_cons_of_neg _ (by simp [h])]
      exact ih

theorem find_setColList_ne (l : List (String × List Cell)) (name name' : String)
    (v : List Cell) (h : name' ≠ name) :
    (setColList l name v).find? (fun p => p.1 = name') =
      l.find? (fun p => p.1 = name') := by
  induction l with
  | nil =>
    simp [setColList, List.find?, h.symm, Ne.symm h]
  | cons kc rest ih =>
    obtain ⟨k, c⟩ := kc
    simp only [setColList]
    by_cases hk : k = name
    · subst hk
      rw [if_pos rfl]
      rw [List.find?_cons_of_neg _ (by simp [Ne.symm h]),
          List.find?_cons_of_neg _ (by simp [Ne.symm h])]
    · simp only [if_neg hk]
      by_cases hk' : k = name'
      · subst hk'
        rw [List.find?_cons_of_pos _ (by simp), List.find?_cons_of_pos _ (by simp)]
      · rw [List.find?_cons_of_neg _ (by simp [hk']),
            List.find?_cons_of_neg _ (by simp [hk'])]
        exact ih

theorem getCol_setCol_same (df : DataFrame) (name : String) (v : List Cell) :
    getCol (setCol df name v) name = some v := by
  simp [getCol, setCol, find_setColList_same]

theorem getCol_setCol_ne (df : DataFrame) (name name' : String) (v : List Cell)
    (h : name' ≠ name) :
    getCol (setCol df name v) name' = getCol df name' := by
  simp [getCol, setCol, find_setColList_ne _ _ _ _ h]

theorem getColD_setCol_same (df : DataFrame) (name : String) (v : List Cell) :
    getColD (setCol df name v) name = v := by
  simp [getColD, getCol_setCol_same]

theorem getColD_setCol_ne (df : DataFrame) (name name' : String) (v : List Cell)
    (h : name' ≠ name) :
    getColD (setCol df name v) name' = getColD df name' := by
  simp [getColD, getCol_setCol_ne _ _ _ _ h]

theorem hasCol_setCol_same (df : DataFrame) (name : String) (v : List Cell) :
    hasCol (setCol df name v) name = true := by
  simp [hasCol, getCol_setCol_same]

theorem hasCol_setCol_ne (df : DataFrame) (name name' : String) (v : List Cell)
    (h : name' ≠ name) :
    hasCol (setCol df name v) name' = hasCol df name' := by
  simp [hasCol, getCol_setCol_ne _ _ _ _ h]

theorem mem_setColList (l : List (String × List Cell)) (name : String)
    (v : List Cell) (p : String × List Cell) (hp : p ∈ setColList l name v) :
    p.2 = v ∨ p ∈ l := by
  induction l with
  | nil =>
    simp only [setColList, List.mem_singleton] at hp
    exact Or.inl (by rw [hp])
  | cons kc rest ih =>
    obtain ⟨k, c⟩ := kc
    simp only [setColList] at hp
    by_cases h : k = name
    · simp only [if_pos h, List.mem_cons] at hp
      rcases hp with h1 | h1
      · exact Or.inl (by rw [h1])
      · exact Or.inr (by simp [h1])
    · simp only [if_neg h, List.mem_cons] at hp
      rcases hp with h1 | h1
      · exact Or.inr (by simp [h1])
      · rcases ih h1 with h2 | h2
        · exact Or.inl h2
        · exact Or.inr (by simp [h2])

theorem WF_setCol {n : Nat} {df : DataFrame} (name : String) {v : List Cell}
    (h : WF n df) (hv : v.length = n) : WF n (setCol df name v) := by
  refine ⟨h.1, fun p hp => ?_⟩
  rcases mem_setColList df.cols name v p hp with h1 | h1
  · rw [h1, hv]
  · exact h.2 p h1

theorem getColD_length_of_hasCol {n : Nat} {df : DataFrame} {c : String}
    (h : WF n df) (hc : hasCol df c = true) : (getColD df c).length = n := by
  unfold hasCol getCol at hc
  unfold getColD getCol
  cases hf : df.cols.find? (fun p => p.1 = c) with
  | none => rw [hf] at hc; simp at hc
  | some p =>
    simp only [Option.map_some', Option.getD_some]
    exact h.2 p (List.mem_of_find?_eq_some hf)

theorem find_map_snd (l : List (String × List Cell)) (g : List Cell → List Cell)
    (c : String) :
    (l.map (fun p => (p.1, g p.2))).find? (fun p => p.1 = c) =
      (l.find? (fun p => p.1 = c)).map (fun p => (p.1, g p.2)) := by
  induction l with
  | nil => rfl
  | cons kc rest ih =>
    obtain ⟨k, v⟩ := kc
    by_cases h : k = c
    · rw [List.map_cons, List.find?_cons_of_pos _ (by simp [h]),
          List.find?_cons_of_pos _ (by simp [h])]
      simp
    · rw [List.map_cons, List.find?_cons_of_neg _ (by simp [h]),
          List.find?_cons_of_neg _ (by simp [h]), ih]

theorem getCol_sortFrame (df : DataFrame) (c : String) :
    getCol (sortFrame df) c =
      (getCol df c).map
        (applyIdx (sortIdx df.timestamps (List.range df.timestamps.length))) := by
  unfold sortFrame getCol
  rw [find_map_snd]
  cases df.cols.find? (fun p => p.1 = c) <;> simp

theorem hasCol_sortFrame (df : DataFrame) (c : String) :
    hasCol (sortFrame df) c = hasCol df c := by
  simp [hasCol, getCol_sortFrame]

theorem length_applyIdx (idx : List Nat) (cells : List Cell) :
    (applyIdx idx cells).length = idx.length := by
  simp [applyIdx]

theorem WF_sortFrame {n : Nat} {df : DataFrame} (h : WF n df) :
    WF n (sortFrame df) := by
  constructor
  · simp [sortFrame, length_sortIdx, h.1]
  · intro p hp
    simp only [sortFrame, List.mem_map] at hp
    obtain ⟨q, _, hq⟩ := hp
    rw [← hq]
    simp [length_applyIdx, length_sortIdx, h.1]

theorem length_constCol (n : Nat) (c : Cell) : (constCol n c).length = n := by
  simp [constCol]

theorem length_shiftCol (k : Nat) (cells : List Cell) :
    (shiftCol k cells).length = cells.length := by
  simp [shiftCol]
  omega

theorem length_rollingMeanCol (w : Nat) (cells : List Cell) :
    (rollingMeanCol w cells).length = cells.length := by
  simp [rollingMeanCol]

theorem length_rollingStdCol (stdFn : List ℚ → ℚ) (w : Nat) (cells : List Cell) :
    (rollingStdCol stdFn w cells).length = cells.length := by
  simp [rollingStdCol]

theorem length_groupMeanCol (keys vals : List Cell) :
    (groupMeanCol keys vals).length = keys.length := by
  simp [groupMeanCol]

theorem length_addConstCol (c : ℚ) (cells : List Cell) :
    (addConstCol c cells).length = cells.length := by
  simp [addConstCol]

theorem length_colDiv (a b : List Cell) :
    (colDiv a b).length = min a.length b.length := by
  simp [colDiv]

theorem length_ffillAux (prev : Cell) (cells : List Cell) :
    (ffillAux prev cells).length = cells.length := by
  induction cells generalizing prev with
  | nil => rfl
  | cons c cs ih =>
    cases c <;> simp [ffillAux, ih]

theorem length_ffillCol (cells : List Cell) : (ffillCol cells).length = cells.length := by
  simp [ffillCol, length_ffillAux]

theorem length_bfillCol (cells : List Cell) : (bfillCol cells).length = cells.length := by
  simp [bfillCol, length_ffillAux]

theorem length_zfillCol (cells : List Cell) : (zfillCol cells).length = cells.length := by
  simp [zfillCol]

theorem zfillCol_no_na (cells : List Cell) : ∀ c ∈ zfillCol cells, c ≠ Cell.na := by
  intro c hc
  simp only [zfillCol, List.mem_map] at hc
  obtain ⟨x, _, hx⟩ := hc
  by_cases h : x = Cell.na
  · rw [← hx, if_pos h]; simp
  · rw [← hx, if_neg h]; exact h

theorem WF_fillnaFrame {n : Nat} {df : DataFrame} (h : WF n df) :
    WF n (fillnaFrame df) := by
  refine ⟨h.1, fun p hp => ?_⟩
  simp only [fillnaFrame, List.mem_map] at hp
  obtain ⟨q, hq, hpq⟩ := hp
  rw [← hpq]
  simp [length_zfillCol, length_bfillCol, length_ffillCol, h.2 q hq]

theorem fillnaFrame_no_na (df : DataFrame) :
    ∀ p ∈ (fillnaFrame df).cols, ∀ c ∈ p.2, c ≠ Cell.na := by
  intro p hp c hc
  simp only [fillnaFrame, List.mem_map] at hp
  obtain ⟨q, _, hpq⟩ := hp
  rw [← hpq] at hc
  exact zfillCol_no_na _ c hc

/-! ### Well-formedness of the pipeline stages -/

theorem transform_length (e : LabelEncoder) (vals : List String) (qs : List ℚ)
    (h : e.transform vals = some qs) : qs.length = vals.length := by
  unfold LabelEncoder.transform at h
  by_cases hall : vals.all (fun v => e.classes.contains v)
  · rw [if_pos hall] at h
    cases h
    simp
  · rw [if_neg hall] at h
    cases h

theorem encodeWith_length (enc : Option LabelEncoder) (vals : List String)
    (qs : List ℚ) (h : encodeWith enc vals = some qs) : qs.length = vals.length := by
  cases enc with
  | none => cases h
  | some e => exact transform_length e vals qs h

theorem length_colStrings (cells : List Cell) : (colStrings cells).length = cells.length := by
  simp [colStrings]

theorem WF_addCustomerIdCol {n : Nat} {df : DataFrame} (cid : String) (h : WF n df) :
    WF n (addCustomerIdCol df cid) := by
  unfold addCustomerIdCol
  split
  · exact h
  · exact WF_setCol _ h (by simp [length_constCol, rowCount, h.1])

theorem hasCol_addCustomerIdCol (df : DataFrame) (cid : String) :
    hasCol (addCustomerIdCol df cid) "customer_id" = true := by
  unfold addCustomerIdCol
  split
  · assumption
  · exact hasCol_setCol_same _ _ _

theorem hasCol_addCustomerIdCol_of (df : DataFrame) (cid c : String)
    (h : hasCol df c = true) : hasCol (addCustomerIdCol df cid) c = true := by
  unfold addCustomerIdCol
  split
  · exact h
  · by_cases hc : c = "customer_id"
    · rw [hc]; exact hasCol_setCol_same _ _ _
    · rw [hasCol_setCol_ne _ _ _ _ hc]; exact h

theorem WF_encodeCustomerCol {n : Nat} {df : DataFrame} (encs : Encoders)
    (h : WF n df) (hc : hasCol df "customer_id" = true) :
    WF n (encodeCustomerCol df encs) := by
  unfold encodeCustomerCol
  cases henc : encodeWith encs.customer_encoder (colStrings (getColD df "customer_id")) with
  | none => exact WF_setCol _ h (by simp [length_constCol, rowCount, h.1])
  | some qs =>
    refine WF_setCol _ h ?_
    rw [List.length_map, encodeWith_length _ _ _ henc, length_colStrings]
    exact getColD_length_of_hasCol h hc

theorem WF_encodeManufacturerCol {n : Nat} {df : DataFrame} (encs : Encoders)
    (h : WF n df) : WF n (encodeManufacturerCol df encs) := by
  unfold encodeManufacturerCol
  split
  · rename_i hc
    cases henc : encodeWith encs.manufacturer_encoder (colStrings (getColD df "manufacturer")) with
    | none => exact WF_setCol _ h (by simp [length_constCol, rowCount, h.1])
    | some qs =>
      refine WF_setCol _ h ?_
      rw [List.length_map, encodeWith_length _ _ _ henc, length_colStrings]
      exact getColD_length_of_hasCol h hc
  · exact WF_setCol _ h (by simp [length_constCol, rowCount, h.1])

theorem WF_encodeRegionCol {n : Nat} {df : DataFrame} (encs : Encoders)
    (h : WF n df) : WF n (encodeRegionCol df encs) := by
  unfold encodeRegionCol
  split
  · rename_i hc
    cases henc : encodeWith encs.region_encoder (colStrings (getColD df "region")) with
    | none => exact WF_setCol _ h (by simp [length_constCol, rowCount, h.1])
    | some qs =>
      refine WF_setCol _ h ?_
      rw [List.length_map, encodeWith_length _ _ _ henc, length_colStrings]
      exact getColD_length_of_hasCol h hc
  · exact WF_setCol _ h (by simp [length_constCol, rowCount, h.1])

theorem WF_addCalendarCols {n : Nat} {df : DataFrame} (h : WF n df) :
    WF n (addCalendarCols df) := by
  unfold addCalendarCols
  have h1 := WF_setCol (n := n) "hour" (v := df.timestamps.map (fun t => Cell.num (hourOf t : ℚ))) h (by simp [h.1])
  have h2 := WF_setCol (n := n) "day_of_week" (v := df.timestamps.map (fun t => Cell.num (dayOfWeekOf t : ℚ))) h1 (by simp [h.1])
  have h3 := WF_setCol (n := n) "month" (v := df.timestamps.map (fun t => Cell.num (monthOf t : ℚ))) h2 (by simp [h.1])
  exact WF_setCol _ h3 (by simp [h.1])

theorem timestamps_sortFrame_length (df : DataFrame) :
    (sortFrame df).timestamps.length = df.timestamps.length := by
  simp [sortFrame, length_sortIdx]

theorem timestamps_kwhStatsBlock (stdFn : List ℚ → ℚ) (df : DataFrame) :
    (kwhStatsBlock stdFn df).timestamps = df.timestamps := rfl

theorem getCol_kwhStatsBlock_of_ne (stdFn : List ℚ → ℚ) (df : DataFrame) (c : String)
    (h1 : c ≠ "customer_kwh_mean") (h2 : c ≠ "customer_kwh_std")
    (h3 : c ≠ "customer_kwh_min") (h4 : c ≠ "customer_kwh_max")
    (h5 : c ≠ "mfg_kwh_mean") (h6 : c ≠ "mfg_kwh_std")
    (h7 : c ≠ "mfg_kwh_min") (h8 : c ≠ "mfg_kwh_max")
    (h9 : c ≠ "regional_hourly_kwh_mean") (h10 : c ≠ "kwh_vs_customer_mean")
    (h11 : c ≠ "kwh_vs_mfg_mean") :
    getCol (kwhStatsBlock stdFn df) c = getCol df c := by
  unfold kwhStatsBlock
  dsimp only
  rw [getCol_setCol_ne _ _ _ _ h11, getCol_setCol_ne _ _ _ _ h10,
      getCol_setCol_ne _ _ _ _ h9, getCol_setCol_ne _ _ _ _ h8,
      getCol_setCol_ne _ _ _ _ h7, getCol_setCol_ne _ _ _ _ h6,
      getCol_setCol_ne _ _ _ _ h5, getCol_setCol_ne _ _ _ _ h4,
      getCol_setCol_ne _ _ _ _ h3, getCol_setCol_ne _ _ _ _ h2,
      getCol_setCol_ne _ _ _ _ h1]

theorem WF_kwhStatsBlock {n : Nat} {df : DataFrame} (stdFn : List ℚ → ℚ)
    (h : WF n df) (hk : hasCol df "kWh" = true) (hh : hasCol df "hour" = true) :
    WF n (kwhStatsBlock stdFn df) := by
  obtain ⟨kv, hkv⟩ := Option.isSome_iff_exists.mp hk
  obtain ⟨hv, hhv⟩ := Option.isSome_iff_exists.mp hh
  have hn : rowCount df = n := h.1
  have hkvl : kv.length = n := by
    have h2 := getColD_length_of_hasCol h hk
    rw [getColD, hkv] at h2
    simpa using h2
  have hhvl : hv.length = n := by
    have h2 := getColD_length_of_hasCol h hh
    rw [getColD, hhv] at h2
    simpa using h2
  unfold kwhStatsBlock
  dsimp only
  refine WF_setCol _ (WF_setCol _ (WF_setCol _ (WF_setCol _ (WF_setCol _ (WF_setCol _
    (WF_setCol _ (WF_setCol _ (WF_setCol _ (WF_setCol _ (WF_setCol _ h ?_) ?_) ?_)
    ?_) ?_) ?_) ?_) ?_) ?_) ?_) ?_ <;>
    simp [getColD, getCol_setCol_same, getCol_setCol_ne, hkv, hhv, hn, hkvl, hhvl,
      length_constCol, length_groupMeanCol, length_colDiv, length_addConstCol]

theorem getCol_kwhLagBlock_ne (df : DataFrame) (c : String)
    (h1 : c ≠ "kwh_lag_1h") (h2 : c ≠ "kwh_lag_24h") :
    getCol (kwhLagBlock df) c = getCol df c := by
  unfold kwhLagBlock
  dsimp only
  split <;>
    rw [getCol_setCol_ne _ _ _ _ h2, getCol_setCol_ne _ _ _ _ h1]

theorem getCol_kwhLagBlock_lag24 (df : DataFrame) :
    getCol (kwhLagBlock df) "kwh_lag_24h" =
      some (if 24 < rowCount df then shiftCol 24 (getColD df "kWh")
            else constCol (rowCount df) (meanCell (getColD df "kWh"))) := by
  unfold kwhLagBlock
  dsimp only
  rw [rowCount_setCol]
  split <;>
    rw [getCol_setCol_same] <;>
    rw [getColD_setCol_ne _ _ _ _ (by decide)]

theorem timestamps_kwhLagBlock (df : DataFrame) :
    (kwhLagBlock df).timestamps = df.timestamps := by
  unfold kwhLagBlock
  dsimp only
  split <;> rfl

theorem WF_kwhLagBlock {n : Nat} {df : DataFrame} (h : WF n df)
    (hk : hasCol df "kWh" = true) : WF n (kwhLagBlock df) := by
  obtain ⟨kv, hkv⟩ := Option.isSome_iff_exists.mp hk
  have hn : rowCount df = n := h.1
  have hkvl : kv.length = n := by
    have h2 := getColD_length_of_hasCol h hk
    rw [getColD, hkv] at h2
    simpa using h2
  unfold kwhLagBlock
  dsimp only
  split <;>
    refine WF_setCol _ (WF_setCol _ h ?_) ?_ <;>
    simp [getColD, getCol_setCol_same, getCol_setCol_ne, hkv, hn, hkvl,
      length_constCol, length_shiftCol, rowCount_setCol]

theorem getCol_kwhRollBlock_ne (stdFn : List ℚ → ℚ) (df : DataFrame) (c : String)
    (h1 : c ≠ "kwh_rolling_mean_6h") (h2 : c ≠ "kwh_rolling_std_6h") :
    getCol (kwhRollBlock stdFn df) c = getCol df c := by
  unfold kwhRollBlock
  dsimp only
  rw [getCol_setCol_ne _ _ _ _ h2, getCol_setCol_ne _ _ _ _ h1]

theorem timestamps_kwhRollBlock (stdFn : List ℚ → ℚ) (df : DataFrame) :
    (kwhRollBlock stdFn df).timestamps = df.timestamps := rfl

theorem WF_kwhRollBlock {n : Nat} {df : DataFrame} (stdFn : List ℚ → ℚ)
    (h : WF n df) (hk : hasCol df "kWh" = true) : WF n (kwhRollBlock stdFn df) := by
  obtain ⟨kv, hkv⟩ := Option.isSome_iff_exists.mp hk
  have hkvl : kv.length = n := by
    have h2 := getColD_length_of_hasCol h hk
    rw [getColD, hkv] at h2
    simpa using h2
  unfold kwhRollBlock
  dsimp only
  refine WF_setCol _ (WF_setCol _ h ?_) ?_ <;>
    simp [getColD, getCol_setCol_same, getCol_setCol_ne, hkv, hkvl,
      length_rollingMeanCol, length_rollingStdCol]

theorem hasCol_of_getCol_eq (df df' : DataFrame) (c : String)
    (h : getCol df' c = getCol df c) (hc : hasCol df c = true) :
    hasCol df' c = true := by
  unfold hasCol at hc ⊢
  rw [h]
  exact hc

theorem WF_addKwhBlock {n : Nat} {df : DataFrame} (stdFn : List ℚ → ℚ)
    (h : WF n df) (hk : hasCol df "kWh" = true) (hh : hasCol df "hour" = true) :
    WF n (addKwhBlock stdFn df) := by
  have w1 : WF n (kwhStatsBlock stdFn df) := WF_kwhStatsBlock stdFn h hk hh
  have k1 : hasCol (kwhStatsBlock stdFn df) "kWh" = true :=
    hasCol_of_getCol_eq df _ _
      (getCol_kwhStatsBlock_of_ne stdFn df "kWh" (by decide) (by decide) (by decide)
        (by decide) (by decide) (by decide) (by decide) (by decide) (by decide)
        (by decide) (by decide)) hk
  have w2 : WF n (sortFrame (kwhStatsBlock stdFn df)) := WF_sortFrame w1
  have k2 : hasCol (sortFrame (kwhStatsBlock stdFn df)) "kWh" = true := by
    rw [hasCol_sortFrame]
    exact k1
  have w3 : WF n (kwhLagBlock (sortFrame (kwhStatsBlock stdFn df))) := WF_kwhLagBlock w2 k2
  have k3 : hasCol (kwhLagBlock (sortFrame (kwhStatsBlock stdFn df))) "kWh" = true :=
    hasCol_of_getCol_eq _ _ _
      (getCol_kwhLagBlock_ne _ "kWh" (by decide) (by decide)) k2
  exact WF_kwhRollBlock stdFn w3 k3

theorem getCol_addCustomerIdCol_ne (df : DataFrame) (cid : String) (c : String)
    (h : c ≠ "customer_id") :
    getCol (addCustomerIdCol df cid) c = getCol df c := by
  unfold addCustomerIdCol
  split
  · rfl
  · rw [getCol_setCol_ne _ _ _ _ h]

theorem getCol_encodeCustomerCol_ne (df : DataFrame) (encs : Encoders) (c : String)
    (h : c ≠ "customer_encoded") :
    getCol (encodeCustomerCol df encs) c = getCol df c := by
  unfold encodeCustomerCol
  split <;> rw [getCol_setCol_ne _ _ _ _ h]

theorem getCol_encodeManufacturerCol_ne (df : DataFrame) (encs : Encoders) (c : String)
    (h : c ≠ "manufacturer_encoded") :
    getCol (encodeManufacturerCol df encs) c = getCol df c := by
  unfold encodeManufacturerCol
  split
  · split <;> rw [getCol_setCol_ne _ _ _ _ h]
  · rw [getCol_setCol_ne _ _ _ _ h]

theorem getCol_encodeRegionCol_ne (df : DataFrame) (encs : Encoders) (c : String)
    (h : c ≠ "region_encoded") :
    getCol (encodeRegionCol df encs) c = getCol df c := by
  unfold encodeRegionCol
  split
  · split <;> rw [getCol_setCol_ne _ _ _ _ h]
  · rw [getCol_setCol_ne _ _ _ _ h]

theorem getCol_addCalendarCols_ne (df : DataFrame) (c : String)
    (h1 : c ≠ "hour") (h2 : c ≠ "day_of_week") (h3 : c ≠ "month")
    (h4 : c ≠ "is_weekend") :
    getCol (addCalendarCols df) c = getCol df c := by
  unfold addCalendarCols
  dsimp only
  rw [getCol_setCol_ne _ _ _ _ h4, getCol_setCol_ne _ _ _ _ h3,
      getCol_setCol_ne _ _ _ _ h2, getCol_setCol_ne _ _ _ _ h1]

theorem hasCol_addCalendarCols_hour (df : DataFrame) :
    hasCol (addCalendarCols df) "hour" = true := by
  unfold addCalendarCols
  dsimp only
  rw [hasCol_setCol_ne _ _ _ _ (by decide), hasCol_setCol_ne _ _ _ _ (by decide),
      hasCol_setCol_ne _ _ _ _ (by decide)]
  exact hasCol_setCol_same _ _ _

/-- The frame reaching the `'kWh' in df.columns` test of line 300. -/
def stagedFrame (df : DataFrame) (cid : String) (encs : Encoders) : DataFrame :=
  addCalendarCols (encodeRegionCol (encodeManufacturerCol
    (encodeCustomerCol (addCustomerIdCol df cid) encs) encs) encs)

theorem prepareBeforeFill_eq_staged (stdFn : List ℚ → ℚ) (df : DataFrame)
    (cid : String) (encs : Encoders) :
    prepareBeforeFill stdFn df cid encs =
      (if hasCol (stagedFrame df cid encs) "kWh" then
        addKwhBlock stdFn (stagedFrame df cid encs)
      else stagedFrame df cid encs) := rfl

theorem getCol_stagedFrame_kwh (df : DataFrame) (cid : String) (encs : Encoders) :
    getCol (stagedFrame df cid encs) "kWh" = getCol df "kWh" := by
  unfold stagedFrame
  rw [getCol_addCalendarCols_ne _ _ (by decide) (by decide) (by decide) (by decide),
      getCol_encodeRegionCol_ne _ _ _ (by decide),
      getCol_encodeManufacturerCol_ne _ _ _ (by decide),
      getCol_encodeCustomerCol_ne _ _ _ (by decide),
      getCol_addCustomerIdCol_ne _ _ _ (by decide)]

theorem WF_stagedFrame {n : Nat} {df : DataFrame} (cid : String) (encs : Encoders)
    (h : WF n df) : WF n (stagedFrame df cid encs) := by
  unfold stagedFrame
  exact WF_addCalendarCols (WF_encodeRegionCol encs (WF_encodeManufacturerCol encs
    (WF_encodeCustomerCol encs (WF_addCustomerIdCol cid h)
      (hasCol_addCustomerIdCol df cid))))

theorem WF_prepareBeforeFill {n : Nat} {df : DataFrame} (stdFn : List ℚ → ℚ)
    (cid : String) (encs : Encoders) (h : WF n df) :
    WF n (prepareBeforeFill stdFn df cid encs) := by
  rw [prepareBeforeFill_eq_staged]
  split
  · rename_i hkw
    exact WF_addKwhBlock stdFn (WF_stagedFrame cid encs h) hkw
      (hasCol_addCalendarCols_hour _)
  · exact WF_stagedFrame cid encs h

/-- C3: for every input TimeSeriesFrame, the FeatureFrame returned by
`prepare_features_for_inference` has the same row count as the input, and
after the forward-fill, backward-fill, zero-fill sequence no cell in any
column of the returned frame is missing. -/
theorem prepare_features_row_count_and_no_missing
    (stdFn : List ℚ → ℚ) (df : DataFrame) (cid : String) (encs : Encoders)
    (h : ∀ p ∈ df.cols, p.2.length = rowCount df) :
    rowCount (prepare_features_for_inference stdFn df cid encs) = rowCount df ∧
    (∀ p ∈ (prepare_features_for_inference stdFn df cid encs).cols,
      p.2.length = rowCount df) ∧
    ∀ p ∈ (prepare_features_for_inference stdFn df cid encs).cols, ∀ c ∈ p.2,
      c ≠ Cell.na := by
  have hwf : WF (rowCount df) df := ⟨rfl, h⟩
  have hout : WF (rowCount df) (prepare_features_for_inference stdFn df cid encs) :=
    WF_fillnaFrame (WF_prepareBeforeFill stdFn cid encs hwf)
  exact ⟨hout.1, hout.2, fillnaFrame_no_na _⟩

/-- Concrete frame exercising the C3 theorem: contains missing cells in both
a numeric and a string column. -/
def c3Frame : DataFrame :=
  ⟨[0, 1], [("kWh", [Cell.na, Cell.num 3]), ("manufacturer", [Cell.str "m", Cell.na])]⟩

/-- Encoders with no fitted encoder, as used by the C3 witness. -/
def c3Encoders : Encoders := ⟨none, none, none⟩

theorem prepare_features_row_count_and_no_missing_witness :
    (∀ p ∈ c3Frame.cols, p.2.length = rowCount c3Frame) ∧
    (rowCount (prepare_features_for_inference (fun _ => 0) c3Frame "c" c3Encoders) =
        rowCount c3Frame ∧
      (∀ p ∈ (prepare_features_for_inference (fun _ => 0) c3Frame "c" c3Encoders).cols,
        p.2.length = rowCount c3Frame) ∧
      ∀ p ∈ (prepare_features_for_inference (fun _ => 0) c3Frame "c" c3Encoders).cols,
        ∀ c ∈ p.2, c ≠ Cell.na) :=
  ⟨by decide,
   prepare_features_row_count_and_no_missing (fun _ => 0) c3Frame "c" c3Encoders
     (by decide)⟩

theorem timestamps_addCustomerIdCol (df : DataFrame) (cid : String) :
    (addCustomerIdCol df cid).timestamps = df.timestamps := by
  unfold addCustomerIdCol
  split <;> rfl

theorem timestamps_encodeCustomerCol (df : DataFrame) (encs : Encoders) :
    (encodeCustomerCol df encs).timestamps = df.timestamps := by
  unfold encodeCustomerCol
  split <;> rfl

theorem timestamps_encodeManufacturerCol (df : DataFrame) (encs : Encoders) :
    (encodeManufacturerCol df encs).timestamps = df.timestamps := by
  unfold encodeManufacturerCol
  split
  · split <;> rfl
  · rfl

theorem timestamps_encodeRegionCol (df : DataFrame) (encs : Encoders) :
    (encodeRegionCol df encs).timestamps = df.timestamps := by
  unfold encodeRegionCol
  split
  · split <;> rfl
  · rfl

theorem timestamps_addCalendarCols (df : DataFrame) :
    (addCalendarCols df).timestamps = df.timestamps := rfl

theorem rowCount_stagedFrame (df : DataFrame) (cid : String) (encs : Encoders) :
    rowCount (stagedFrame df cid encs) = rowCount df := by
  unfold rowCount stagedFrame
  rw [timestamps_addCalendarCols, timestamps_encodeRegionCol,
      timestamps_encodeManufacturerCol, timestamps_encodeCustomerCol,
      timestamps_addCustomerIdCol]

/-- C5: with the primary metric column present, the 24-step lag column of the
feature frame (before the final fill) is the metric column shifted by 24 rows
when the frame has at least 25 rows, and the constant frame-level metric mean
in every row when it has fewer than 25 rows. -/
theorem kwh_lag24_spec (stdFn : List ℚ → ℚ) (df : DataFrame) (cid : String)
    (encs : Encoders) (hk : hasCol df "kWh" = true) :
    (25 ≤ rowCount df →
      getCol (prepareBeforeFill stdFn df cid encs) "kwh_lag_24h" =
        some (shiftCol 24 (getColD (prepareBeforeFill stdFn df cid encs) "kWh"))) ∧
    (rowCount df < 25 →
      getCol (prepareBeforeFill stdFn df cid encs) "kwh_lag_24h" =
        some (constCol (rowCount df)
          (meanCell (getColD (prepareBeforeFill stdFn df cid encs) "kWh")))) := by
  have hksf : hasCol (stagedFrame df cid encs) "kWh" = true := by
    unfold hasCol
    rw [getCol_stagedFrame_kwh]
    exact hk
  have hpre : prepareBeforeFill stdFn df cid encs =
      addKwhBlock stdFn (stagedFrame df cid encs) := by
    rw [prepareBeforeFill_eq_staged]
    simp [hksf]
  have hkw_out : getCol (addKwhBlock stdFn (stagedFrame df cid encs)) "kWh" =
      getCol (sortFrame (kwhStatsBlock stdFn (stagedFrame df cid encs))) "kWh" := by
    unfold addKwhBlock
    rw [getCol_kwhRollBlock_ne _ _ _ (by decide) (by decide),
        getCol_kwhLagBlock_ne _ _ (by decide) (by decide)]
  have hrc : rowCount (sortFrame (kwhStatsBlock stdFn (stagedFrame df cid encs))) =
      rowCount df := by
    rw [rowCount_sortFrame]
    show (kwhStatsBlock stdFn (stagedFrame df cid encs)).timestamps.length = rowCount df
    rw [timestamps_kwhStatsBlock]
    exact rowCount_stagedFrame df cid encs
  have hlag : getCol (addKwhBlock stdFn (stagedFrame df cid encs)) "kwh_lag_24h" =
      some (if 24 < rowCount df then
          shiftCol 24 (getColD (sortFrame (kwhStatsBlock stdFn (stagedFrame df cid encs))) "kWh")
        else
          constCol (rowCount df)
            (meanCell (getColD (sortFrame (kwhStatsBlock stdFn (stagedFrame df cid encs))) "kWh"))) := by
    unfold addKwhBlock
    rw [getCol_kwhRollBlock_ne _ _ _ (by decide) (by decide),
        getCol_kwhLagBlock_lag24, hrc]
  constructor
  · intro h25
    rw [hpre, hlag, if_pos (by omega)]
    unfold getColD
    rw [hkw_out]
  · intro h25
    rw [hpre, hlag, if_neg (by omega)]
    unfold getColD
    rw [hkw_out]

/-- Concrete one-row frame exercising the short-frame branch of the 24-hour
lag rule. -/
def c5Frame : DataFrame := ⟨[5], [("kWh", [Cell.num 7])]⟩

theorem kwh_lag24_spec_witness :
    hasCol c5Frame "kWh" = true ∧ rowCount c5Frame < 25 ∧
    getCol (prepareBeforeFill (fun _ => 0) c5Frame "c" ⟨none, none, none⟩) "kwh_lag_24h" =
      some (constCol (rowCount c5Frame)
        (meanCell (getColD (prepareBeforeFill (fun _ => 0) c5Frame "c" ⟨none, none, none⟩) "kWh"))) :=
  ⟨by decide, by decide,
   (kwh_lag24_spec (fun _ => 0) c5Frame "c" ⟨none, none, none⟩ (by decide)).2 (by decide)⟩

theorem getCol_fillnaFrame (df : DataFrame) (c : String) :
    getCol (fillnaFrame df) c =
      (getCol df c).map (fun v => zfillCol (bfillCol (ffillCol v))) := by
  unfold fillnaFrame getCol
  dsimp only
  rw [find_map_snd df.cols (fun v => zfillCol (bfillCol (ffillCol v))) c]
  cases df.cols.find? (fun p => p.1 = c) <;> simp

theorem ffillAux_no_na (prev : Cell) (cells : List Cell)
    (h : ∀ c ∈ cells, c ≠ Cell.na) : ffillAux prev cells = cells := by
  induction cells generalizing prev with
  | nil => rfl
  | cons c cs ih =>
    cases c with
    | na => exact absurd rfl (h Cell.na (by simp))
    | num q => simp [ffillAux, ih _ (fun x hx => h x (by simp [hx]))]
    | str s => simp [ffillAux, ih _ (fun x hx => h x (by simp [hx]))]

theorem zfillCol_no_na_id (cells : List Cell) (h : ∀ c ∈ cells, c ≠ Cell.na) :
    zfillCol cells = cells := by
  induction cells with
  | nil => rfl
  | cons c cs ih =>
    unfold zfillCol at *
    simp only [List.map_cons]
    rw [if_neg (h c (by simp)), ih (fun x hx => h x (by simp [hx]))]

theorem fill_chain_no_na (cells : List Cell) (h : ∀ c ∈ cells, c ≠ Cell.na) :
    zfillCol (bfillCol (ffillCol cells)) = cells := by
  have h1 : ffillCol cells = cells := ffillAux_no_na Cell.na cells h
  have h2 : bfillCol cells = cells := by
    unfold bfillCol
    rw [ffillAux_no_na Cell.na cells.reverse (fun x hx => h x (List.mem_reverse.mp hx))]
    exact List.reverse_reverse cells
  rw [ffillCol] at h1
  unfold ffillCol
  rw [h1, h2]
  exact zfillCol_no_na_id cells h

theorem getD_replicate (n i : Nat) (c d : Cell) (hi : i < n) :
    (List.replicate n c).getD i d = c := by
  rw [List.getD_eq_getElem?_getD, List.getElem?_replicate, if_pos hi]
  rfl

theorem applyIdx_sortIdx_constCol (ts : List Int) (n : Nat) (c : Cell)
    (h : ts.length = n) :
    applyIdx (sortIdx ts (List.range ts.length)) (constCol n c) = constCol n c := by
  unfold applyIdx constCol
  apply List.eq_replicate_iff.mpr
  constructor
  · simp [length_sortIdx, h]
  · intro b hb
    simp only [List.mem_map] at hb
    obtain ⟨i, hi, hbi⟩ := hb
    have hilt : i < n := by
      have := List.mem_range.mp (mem_sortIdx ts _ i hi)
      omega
    rw [← hbi]
    exact getD_replicate n i c Cell.na hilt

/-- A column holding the constant default-encoded value everywhere is
untouched by the kWh feature block and by the final fill. -/
theorem zeros_col_survives (stdFn : List ℚ → ℚ) (g : DataFrame) (c : String) (n : Nat)
    (h1 : c ≠ "customer_kwh_mean") (h2 : c ≠ "customer_kwh_std")
    (h3 : c ≠ "customer_kwh_min") (h4 : c ≠ "customer_kwh_max")
    (h5 : c ≠ "mfg_kwh_mean") (h6 : c ≠ "mfg_kwh_std")
    (h7 : c ≠ "mfg_kwh_min") (h8 : c ≠ "mfg_kwh_max")
    (h9 : c ≠ "regional_hourly_kwh_mean") (h10 : c ≠ "kwh_vs_customer_mean")
    (h11 : c ≠ "kwh_vs_mfg_mean") (h12 : c ≠ "kwh_lag_1h") (h13 : c ≠ "kwh_lag_24h")
    (h14 : c ≠ "kwh_rolling_mean_6h") (h15 : c ≠ "kwh_rolling_std_6h")
    (hts : g.timestamps.length = n)
    (hval : getCol g c = some (constCol n (Cell.num 0))) :
    getCol (fillnaFrame (if hasCol g "kWh" then addKwhBlock stdFn g else g)) c =
      some (constCol n (Cell.num 0)) := by
  have hmid : getCol (if hasCol g "kWh" then addKwhBlock stdFn g else g) c =
      some (constCol n (Cell.num 0)) := by
    split
    · unfold addKwhBlock
      rw [getCol_kwhRollBlock_ne _ _ _ h14 h15, getCol_kwhLagBlock_ne _ _ h12 h13,
          getCol_sortFrame, getCol_kwhStatsBlock_of_ne _ _ _ h1 h2 h3 h4 h5 h6 h7 h8
            h9 h10 h11, hval, timestamps_kwhStatsBlock]
      simp only [Option.map_some']
      rw [applyIdx_sortIdx_constCol _ _ _ hts]
    · exact hval
  rw [getCol_fillnaFrame, hmid]
  simp only [Option.map_some']
  rw [fill_chain_no_na]
  intro x hx
  unfold constCol at hx
  rw [List.eq_of_mem_replicate hx]
  simp

theorem encodeCustomerCol_default (df : DataFrame) (encs : Encoders)
    (h : encodeWith encs.customer_encoder (colStrings (getColD df "customer_id")) = none) :
    getCol (encodeCustomerCol df encs) "customer_encoded" =
      some (constCol (rowCount df) (Cell.num 0)) := by
  unfold encodeCustomerCol
  rw [h]
  exact getCol_setCol_same _ _ _

theorem encodeManufacturerCol_default (df : DataFrame) (encs : Encoders)
    (h : hasCol df "manufacturer" = false ∨
      encodeWith encs.manufacturer_encoder (colStrings (getColD df "manufacturer")) = none) :
    getCol (encodeManufacturerCol df encs) "manufacturer_encoded" =
      some (constCol (rowCount df) (Cell.num 0)) := by
  unfold encodeManufacturerCol
  by_cases hc : hasCol df "manufacturer" = true
  · have henc : encodeWith encs.manufacturer_encoder
        (colStrings (getColD df "manufacturer")) = none := by
      rcases h with h | h
      · rw [hc] at h; cases h
      · exact h
    rw [if_pos hc, henc]
    exact getCol_setCol_same _ _ _
  · rw [if_neg hc]
    exact getCol_setCol_same _ _ _

theorem encodeRegionCol_default (df : DataFrame) (encs : Encoders)
    (h : hasCol df "region" = false ∨
      encodeWith encs.region_encoder (colStrings (getColD df "region")) = none) :
    getCol (encodeRegionCol df encs) "region_encoded" =
      some (constCol (rowCount df) (Cell.num 0)) := by
  unfold encodeRegionCol
  by_cases hc : hasCol df "region" = true
  · have henc : encodeWith encs.region_encoder
        (colStrings (getColD df "region")) = none := by
      rcases h with h | h
      · rw [hc] at h; cases h
      · exact h
    rw [if_pos hc, henc]
    exact getCol_setCol_same _ _ _
  · rw [if_neg hc]
    exact getCol_setCol_same _ _ _

theorem rowCount_encodeCustomer_addCustomerId (df : DataFrame) (cid : String)
    (encs : Encoders) :
    rowCount (encodeCustomerCol (addCustomerIdCol df cid) encs) = rowCount df := by
  unfold rowCount
  rw [timestamps_encodeCustomerCol, timestamps_addCustomerIdCol]

/-- C7 (amended): in feature preparation, the manufacturer and region encoded
columns default to 0 in every row when the raw column is absent or the fitted
encoder is missing or fails; the customer id column, by contrast, is
auto-filled with the supplied customer id when absent, and its encoded column
defaults to 0 exactly when the encoder is missing or fails on that (possibly
auto-filled) column; the pipeline completes normally in all these cases. -/
theorem categorical_default_encoding (stdFn : List ℚ → ℚ) (df : DataFrame)
    (cid : String) (encs : Encoders) :
    ((hasCol df "manufacturer" = false ∨
        encodeWith encs.manufacturer_encoder (colStrings (getColD df "manufacturer")) = none) →
      getCol (prepare_features_for_inference stdFn df cid encs) "manufacturer_encoded" =
        some (constCol (rowCount df) (Cell.num 0))) ∧
    ((hasCol df "region" = false ∨
        encodeWith encs.region_encoder (colStrings (getColD df "region")) = none) →
      getCol (prepare_features_for_inference stdFn df cid encs) "region_encoded" =
        some (constCol (rowCount df) (Cell.num 0))) ∧
    (encodeWith encs.customer_encoder
        (colStrings (getColD (addCustomerIdCol df cid) "customer_id")) = none →
      getCol (prepare_features_for_inference stdFn df cid encs) "customer_encoded" =
        some (constCol (rowCount df) (Cell.num 0))) := by
  have hts : (stagedFrame df cid encs).timestamps.length = rowCount df :=
    rowCount_stagedFrame df cid encs
  refine ⟨fun h => ?_, fun h => ?_, fun h => ?_⟩
  · -- manufacturer
    have hraw : getCol (encodeCustomerCol (addCustomerIdCol df cid) encs) "manufacturer" =
        getCol df "manufacturer" := by
      rw [getCol_encodeCustomerCol_ne _ _ _ (by decide),
          getCol_addCustomerIdCol_ne _ _ _ (by decide)]
    have h' : hasCol (encodeCustomerCol (addCustomerIdCol df cid) encs) "manufacturer" = false ∨
        encodeWith encs.manufacturer_encoder
          (colStrings (getColD (encodeCustomerCol (addCustomerIdCol df cid) encs)
            "manufacturer")) = none := by
      rcases h with h | h
      · exact Or.inl (by unfold hasCol; rw [hraw]; exact h)
      · exact Or.inr (by unfold getColD; rw [hraw]; exact h)
    have hdef := encodeManufacturerCol_default _ encs h'
    rw [rowCount_encodeCustomer_addCustomerId] at hdef
    have hstaged : getCol (stagedFrame df cid encs) "manufacturer_encoded" =
        some (constCol (rowCount df) (Cell.num 0)) := by
      unfold stagedFrame
      rw [getCol_addCalendarCols_ne _ _ (by decide) (by decide) (by decide) (by decide),
          getCol_encodeRegionCol_ne _ _ _ (by decide)]
      exact hdef
    unfold prepare_features_for_inference
    rw [prepareBeforeFill_eq_staged]
    exact zeros_col_survives stdFn _ _ _ (by decide) (by decide) (by decide) (by decide)
      (by decide) (by decide) (by decide) (by decide) (by decide) (by decide) (by decide)
      (by decide) (by decide) (by decide) (by decide) hts hstaged
  · -- region
    have hraw : getCol (encodeManufacturerCol (encodeCustomerCol
        (addCustomerIdCol df cid) encs) encs) "region" = getCol df "region" := by
      rw [getCol_encodeManufacturerCol_ne _ _ _ (by decide),
          getCol_encodeCustomerCol_ne _ _ _ (by decide),
          getCol_addCustomerIdCol_ne _ _ _ (by decide)]
    have h' : hasCol (encodeManufacturerCol (encodeCustomerCol
          (addCustomerIdCol df cid) encs) encs) "region" = false ∨
        encodeWith encs.region_encoder (colStrings (getColD (encodeManufacturerCol
          (encodeCustomerCol (addCustomerIdCol df cid) encs) encs) "region")) = none := by
      rcases h with h | h
      · exact Or.inl (by unfold hasCol; rw [hraw]; exact h)
      · exact Or.inr (by unfold getColD; rw [hraw]; exact h)
    have hdef := encodeRegionCol_default _ encs h'
    have hrc : rowCount (encodeManufacturerCol (encodeCustomerCol
        (addCustomerIdCol df cid) encs) encs) = rowCount df := by
      unfold rowCount
      rw [timestamps_encodeManufacturerCol, timestamps_encodeCustomerCol,
          timestamps_addCustomerIdCol]
    rw [hrc] at hdef
    have hstaged : getCol (stagedFrame df cid encs) "region_encoded" =
        some (constCol (rowCount df) (Cell.num 0)) := by
      unfold stagedFrame
      rw [getCol_addCalendarCols_ne _ _ (by decide) (by decide) (by decide) (by decide)]
      exact hdef
    unfold prepare_features_for_inference
    rw [prepareBeforeFill_eq_staged]
    exact zeros_col_survives stdFn _ _ _ (by decide) (by decide) (by decide) (by decide)
      (by decide) (by decide) (by decide) (by decide) (by decide) (by decide) (by decide)
      (by decide) (by decide) (by decide) (by decide) hts hstaged
  · -- customer
    have hdef := encodeCustomerCol_default (addCustomerIdCol df cid) encs h
    have hrc : rowCount (addCustomerIdCol df cid) = rowCount df := by
      unfold rowCount
      rw [timestamps_addCustomerIdCol]
    rw [hrc] at hdef
    have hstaged : getCol (stagedFrame df cid encs) "customer_encoded" =
        some (constCol (rowCount df) (Cell.num 0)) := by
      unfold stagedFrame
      rw [getCol_addCalendarCols_ne _ _ (by decide) (by decide) (by decide) (by decide),
          getCol_encodeRegionCol_ne _ _ _ (by decide),
          getCol_encodeManufacturerCol_ne _ _ _ (by decide)]
      exact hdef
    unfold prepare_features_for_inference
    rw [prepareBeforeFill_eq_staged]
    exact zeros_col_survives stdFn _ _ _ (by decide) (by decide) (by decide) (by decide)
      (by decide) (by decide) (by decide) (by decide) (by decide) (by decide) (by decide)
      (by decide) (by decide) (by decide) (by decide) hts hstaged

/-- One-row frame without a customer id column, for the C7 counterexample. -/
def c7Frame : DataFrame := ⟨[0], []⟩

/-- Encoders whose fitted customer encoder knows customer "c1" with label 1. -/
def c7Encoders : Encoders := ⟨some ⟨["a", "c1"]⟩, none, none⟩

theorem customer_encoded_not_default_when_column_absent :
    hasCol c7Frame "customer_id" = false ∧
    getCol (prepare_features_for_inference (fun _ => 0) c7Frame "c1" c7Encoders)
        "customer_encoded" = some [Cell.num 1] ∧
    (some [Cell.num 1] : Option (List Cell)) ≠
      some (constCol (rowCount c7Frame) (Cell.num 0)) :=
  ⟨by decide, by decide, by decide⟩

/-- One-row frame for the C7 amended-theorem witness. -/
def c7wFrame : DataFrame := ⟨[0], [("kWh", [Cell.num 2])]⟩

theorem categorical_default_encoding_witness :
    getCol (prepare_features_for_inference (fun _ => 0) c7wFrame "c" ⟨none, none, none⟩)
        "manufacturer_encoded" = some (constCol (rowCount c7wFrame) (Cell.num 0)) ∧
    getCol (prepare_features_for_inference (fun _ => 0) c7wFrame "c" ⟨none, none, none⟩)
        "region_encoded" = some (constCol (rowCount c7wFrame) (Cell.num 0)) ∧
    getCol (prepare_features_for_inference (fun _ => 0) c7wFrame "c" ⟨none, none, none⟩)
        "customer_encoded" = some (constCol (rowCount c7wFrame) (Cell.num 0)) :=
  ⟨(categorical_default_encoding (fun _ => 0) c7wFrame "c" ⟨none, none, none⟩).1
      (by decide),
   (categorical_default_encoding (fun _ => 0) c7wFrame "c" ⟨none, none, none⟩).2.1
      (by decide),
   (categorical_default_encoding (fun _ => 0) c7wFrame "c" ⟨none, none, none⟩).2.2
      (by decide)⟩

theorem seqLoop_eq_filterMap (df : DataFrame) (cols : List String) (L : Nat)
    (is : List Nat) :
    seqLoop df cols L is = is.filterMap (fun i => extractWindow df cols (i - L) L) := by
  induction is with
  | nil => rfl
  | cons i is ih =>
    unfold seqLoop
    cases h : extractWindow df cols (i - L) L <;>
      simp [h, ih, List.filterMap_cons]

theorem mapM_option_isSome {α β : Type} (f : α → Option β) (l : List α)
    (h : ∀ a ∈ l, (f a).isSome = true) : (l.mapM f).isSome = true := by
  rw [← List.mapM'_eq_mapM]
  revert h
  induction l with
  | nil => intro h; rfl
  | cons a as ih =>
    intro h
    obtain ⟨b, hb⟩ := Option.isSome_iff_exists.mp (h a (by simp))
    obtain ⟨bs, hbs⟩ := Option.isSome_iff_exists.mp
      (ih (fun x hx => h x (by simp [hx])))
    simp only [List.mapM']
    rw [hb, hbs]
    rfl

theorem extractWindow_isSome (df : DataFrame) (cols : List String) (start L : Nat)
    (h : ∀ c ∈ cols, ∀ r < L, ∃ q, (getColD df c).getD (start + r) Cell.na = Cell.num q) :
    (extractWindow df cols start L).isSome = true := by
  unfold extractWindow
  apply mapM_option_isSome
  intro row hrow
  simp only [List.mem_map, List.mem_range] at hrow
  obtain ⟨r, hr, hrw⟩ := hrow
  rw [← hrw]
  unfold rowNums
  apply mapM_option_isSome
  intro cell hcell
  simp only [List.mem_map] at hcell
  obtain ⟨c, hc, hcell'⟩ := hcell
  obtain ⟨q, hq⟩ := h c hc r hr
  rw [← hcell', hq]
  rfl

/-- C4: the sequence windower fails with InsufficientData exactly when the
frame has fewer rows than the window length; otherwise it keeps, in order,
every stride-1 candidate window of length L (one ending at each row index
from L-1 to the last row), discarding without error any candidate whose
restricted cells do not all extract as numbers, fails with NoValidSequences
when every candidate is discarded, and for a frame with row count equal to L
and no missing values in the feature columns it produces exactly one
window. -/
theorem create_sequences_spec (df : DataFrame) (cols : List String) (L : Nat) :
    (create_sequences_for_inference df cols L = Except.error SeqError.insufficientData ↔
      rowCount df < L) ∧
    (L ≤ rowCount df →
      (create_sequences_for_inference df cols L = Except.error SeqError.noValidSequences ↔
        ∀ i ∈ List.range' L (rowCount df + 1 - L),
          extractWindow (sortFrame df) cols (i - L) L = none)) ∧
    (L ≤ rowCount df → ∀ ws, create_sequences_for_inference df cols L = Except.ok ws →
      ws = (List.range' L (rowCount df + 1 - L)).filterMap
        (fun i => extractWindow (sortFrame df) cols (i - L) L)) ∧
    (rowCount df = L →
      (∀ p ∈ df.cols, p.2.length = rowCount df) →
      cols.all (fun c => hasCol df c) = true →
      cols.all (fun c => (getColD df c).all (fun x => (cellNum x).isSome)) = true →
      ∃ w, create_sequences_for_inference df cols L = Except.ok [w]) := by
  have hrw : create_sequences_for_inference df cols L =
      (if rowCount df < L then Except.error SeqError.insufficientData
       else
        if (seqLoop (sortFrame df) cols L
            (List.range' L (rowCount df + 1 - L))).isEmpty then
          Except.error SeqError.noValidSequences
        else Except.ok (seqLoop (sortFrame df) cols L
          (List.range' L (rowCount df + 1 - L)))) := by
    unfold create_sequences_for_inference
    dsimp only
    rw [rowCount_sortFrame]
  refine ⟨⟨fun h => ?_, fun h => ?_⟩, fun hle => ⟨fun h => ?_, fun h => ?_⟩,
    fun hle ws hok => ?_, fun hL hwf hcols hnum => ?_⟩
  · -- error insufficientData → rowCount < L
    by_contra hlt
    rw [hrw, if_neg hlt] at h
    split at h <;> simp at h
  · rw [hrw, if_pos h]
  · -- error noValid → all candidates none
    rw [hrw, if_neg (by omega)] at h
    intro i hi
    split at h
    · rename_i hempty
      rw [seqLoop_eq_filterMap, List.isEmpty_iff, List.filterMap_eq_nil_iff] at hempty
      exact hempty i hi
    · simp at h
  · -- all none → error noValid
    rw [hrw, if_neg (by omega)]
    rw [if_pos ?_]
    rw [seqLoop_eq_filterMap, List.isEmpty_iff, List.filterMap_eq_nil_iff]
    exact h
  · -- ok ws → ws is the filterMap of candidates
    rw [hrw, if_neg (by omega)] at hok
    split at hok
    · simp at hok
    · rw [seqLoop_eq_filterMap] at hok
      exact (Except.ok.injEq _ _ ▸ congrArg id hok) ▸ (by
        cases hok
        rfl)
  · -- exactly one window for a full-length clean frame
    have hwfr : WF (rowCount df) df := ⟨rfl, hwf⟩
    have hex : (extractWindow (sortFrame df) cols 0 L).isSome = true := by
      apply extractWindow_isSome
      intro c hc r hr
      have hhc : hasCol df c = true := by
        have := List.all_eq_true.mp hcols c hc
        simpa using this
      obtain ⟨v, hv⟩ := Option.isSome_iff_exists.mp hhc
      have hvlen : v.length = rowCount df := by
        have h2 := getColD_length_of_hasCol hwfr hhc
        rw [getColD, hv] at h2
        simpa using h2
      have hnums : ∀ x ∈ v, (cellNum x).isSome = true := by
        intro x hx
        have h2 := List.all_eq_true.mp hnum c hc
        have h3 := List.all_eq_true.mp h2 x (by rw [getColD, hv]; simpa using hx)
        simpa using h3
      rw [getColD, getCol_sortFrame, hv]
      simp only [Option.map_some', Option.getD_some]
      unfold applyIdx
      have hidxlen : (sortIdx df.timestamps (List.range df.timestamps.length)).length =
          rowCount df := by
        rw [length_sortIdx, List.length_range]
        rfl
      have hrlt : 0 + r < (sortIdx df.timestamps (List.range df.timestamps.length)).length := by
        rw [hidxlen, hL]
        omega
      rw [List.getD_eq_getElem?_getD, List.getElem?_map]
      rw [List.getElem?_eq_getElem hrlt]
      simp only [Option.map_some', Option.getD_some]
      set j := (sortIdx df.timestamps (List.range df.timestamps.length))[0 + r] with hj
      have hjmem : j ∈ sortIdx df.timestamps (List.range df.timestamps.length) :=
        List.getElem_mem _
      have hjlt : j < v.length := by
        rw [hvlen]
        have := List.mem_range.mp (mem_sortIdx df.timestamps _ j hjmem)
        simpa [rowCount] using this
      have hmem2 : v.getD j Cell.na ∈ v := by
        rw [List.getD_eq_getElem?_getD, List.getElem?_eq_getElem hjlt]
        simp only [Option.getD_some]
        exact List.getElem_mem _
      obtain ⟨q, hq⟩ := Option.isSome_iff_exists.mp (hnums _ hmem2)
      cases hcell : v.getD j Cell.na with
      | na => rw [hcell] at hq; cases hq
      | num q2 => exact ⟨q2, rfl⟩
      | str s => rw [hcell] at hq; cases hq
    obtain ⟨w, hw⟩ := Option.isSome_iff_exists.mp hex
    refine ⟨w, ?_⟩
    rw [hrw, if_neg (by omega)]
    have hr1 : rowCount df + 1 - L = 1 := by omega
    rw [hr1, seqLoop_eq_filterMap]
    have : List.range' L 1 = [L] := List.range'_one
    rw [this]
    have hLL : L - L = 0 := by omega
    simp only [List.filterMap_cons, List.filterMap_nil, hLL, hw]
    rfl

/-- Two-row clean frame matching the window length, for the C4 witness. -/
def c4Frame : DataFrame := ⟨[0, 1], [("kWh", [Cell.num 1, Cell.num 2])]⟩

/-- One-row frame, shorter than the window length, for the C4 witness. -/
def c4Small : DataFrame := ⟨[0], [("kWh", [Cell.num 1])]⟩

theorem create_sequences_spec_witness :
    (∃ w, create_sequences_for_inference c4Frame ["kWh"] 2 = Except.ok [w]) ∧
    create_sequences_for_inference c4Small ["kWh"] 2 =
      Except.error SeqError.insufficientData :=
  ⟨(create_sequences_spec c4Frame ["kWh"] 2).2.2.2 (by decide) (by decide)
      (by decide) (by decide),
   (create_sequences_spec c4Small ["kWh"] 2).1.mpr (by decide)⟩

/-- C1 counterexample: with five available single-target predictions, the
point for hour_ahead = 1 carries the first (oldest) window's prediction, not
the latest one's. -/
theorem forecast_assembly_not_most_recent_first :
    ((generate_forecast_points [[10], [11], [12], [13], [14]] 0 3 ["kWh"]).getD 0
        default).values = [("kWh", (10 : ℚ))] ∧
    ((generate_forecast_points [[10], [11], [12], [13], [14]] 0 3 ["kWh"]).getD 0
        default).values ≠ [("kWh", (14 : ℚ))] :=
  ⟨by decide, by decide⟩

/-- C1 (amended): the assembler yields exactly min(H, available predictions)
points; the i-th point (1-indexed) is stamped last_timestamp + i hours with
hour_ahead = i and carries the i-th prediction vector counted oldest-first
(the earliest window's prediction is used for hour_ahead = 1), each target
paired positionally with the components the vector can fill. -/
theorem forecast_assembly_spec (preds : List (List ℚ)) (T : Int) (H : Nat)
    (targets : List String) :
    (generate_forecast_points preds T H targets).length = min H preds.length ∧
    ∀ i, i < min H preds.length →
      (generate_forecast_points preds T H targets).getD i default =
        { timestamp := T + (i : Int) + 1
          hour_ahead := i + 1
          values := targets.zip (preds.getD i []) } :=
  ⟨generate_forecast_points_length preds T H targets,
   fun i hi => generate_forecast_points_getD preds T H targets i hi⟩

theorem forecast_assembly_spec_witness :
    (generate_forecast_points [[10], [11], [12], [13], [14]] 0 3 ["kWh"]).length = 3 ∧
    (generate_forecast_points [[10], [11], [12], [13], [14]] 0 3 ["kWh"]).getD 0
        default =
      { timestamp := 1, hour_ahead := 1, values := [("kWh", (10 : ℚ))] } := by
  constructor
  · have h := (forecast_assembly_spec [[10], [11], [12], [13], [14]] 0 3 ["kWh"]).1
    simpa using h
  · have h := (forecast_assembly_spec [[10], [11], [12], [13], [14]] 0 3 ["kWh"]).2 0
      (by decide)
    simpa using h

/-! ### C10 support: record-level sort lemmas -/

theorem length_insertRec (r : TSRecord) (ss : List TSRecord) :
    (insertRec r ss).length = ss.length + 1 := by
  induction ss with
  | nil => rfl
  | cons s ss ih =>
    simp only [insertRec]
    split
    · simp
    · simp [ih]

theorem length_foldl_insertRec (rs : List TSRecord) :
    ∀ acc : List TSRecord,
      (rs.foldl (fun acc r => insertRec r acc) acc).length = acc.length + rs.length := by
  induction rs with
  | nil => intro acc; simp
  | cons r rs ih =>
    intro acc
    rw [List.foldl_cons, ih, length_insertRec, List.length_cons]
    omega

theorem length_sortRecs (rs : List TSRecord) : (sortRecs rs).length = rs.length := by
  simpa using length_foldl_insertRec rs []

theorem mem_insertRec (r : TSRecord) (ss : List TSRecord) (x : TSRecord)
    (hx : x ∈ insertRec r ss) : x = r ∨ x ∈ ss := by
  induction ss with
  | nil => simpa [insertRec] using hx
  | cons s ss ih =>
    simp only [insertRec] at hx
    revert hx
    split
    · intro hx
      rcases List.mem_cons.mp hx with h1 | h1
      · exact Or.inl h1
      · exact Or.inr h1
    · intro hx
      rcases List.mem_cons.mp hx with h1 | h1
      · exact Or.inr (by simp [h1])
      · rcases ih h1 with h2 | h2
        · exact Or.inl h2
        · exact Or.inr (by simp [h2])

theorem mem_foldl_insertRec (rs : List TSRecord) :
    ∀ acc : List TSRecord, ∀ x ∈ rs.foldl (fun acc r => insertRec r acc) acc,
      x ∈ acc ∨ x ∈ rs := by
  induction rs with
  | nil => intro acc x h; exact Or.inl h
  | cons r rs ih =>
    intro acc x h
    rcases ih (insertRec r acc) x h with h1 | h1
    · rcases mem_insertRec r acc x h1 with h2 | h2
      · exact Or.inr (by simp [h2])
      · exact Or.inl h2
    · exact Or.inr (by simp [h1])

theorem mem_sortRecs (rs : List TSRecord) (x : TSRecord) (hx : x ∈ sortRecs rs) :
    x ∈ rs := by
  rcases mem_foldl_insertRec rs [] x hx with h1 | h1
  · simp at h1
  · exact h1

/-- C10: when the customer's stored series is non-empty but contains no record
inside the requested recent window, the selection does not fail and does not
return an empty frame: it returns the last `hours` records of the sorted
series, which is non-empty. -/
theorem get_recent_fallback_nonempty (records : List TSRecord) (now : Int)
    (hours : Nat) (hne : records ≠ []) (hh : 1 ≤ hours)
    (hout : ∀ r ∈ records, r.ts < now - (hours : Int)) :
    get_recent_customer_data_select records now hours =
      (sortRecs records).drop ((sortRecs records).length - hours) ∧
    get_recent_customer_data_select records now hours ≠ [] := by
  have hfilter : (sortRecs records).filter
      (fun r => decide (now - (hours : Int) ≤ r.ts)) = [] := by
    rw [List.filter_eq_nil_iff]
    intro r hr
    have hmem : r ∈ records := mem_sortRecs _ _ hr
    have := hout r hmem
    simp only [decide_eq_true_eq]
    omega
  have hlen : (sortRecs records).length = records.length := length_sortRecs records
  have hlpos : 1 ≤ records.length := by
    cases records with
    | nil => exact absurd rfl hne
    | cons a as => simp
  have heq : get_recent_customer_data_select records now hours =
      (sortRecs records).drop ((sortRecs records).length - hours) := by
    unfold get_recent_customer_data_select
    dsimp only
    rw [hfilter]
    rfl
  refine ⟨heq, ?_⟩
  rw [heq]
  intro hcontra
  have hdl : ((sortRecs records).drop ((sortRecs records).length - hours)).length = 0 := by
    rw [hcontra]
    rfl
  rw [List.length_drop, hlen] at hdl
  omega

theorem get_recent_fallback_nonempty_witness :
    get_recent_customer_data_select [⟨0, 5⟩] 100 1 =
      (sortRecs [⟨0, 5⟩]).drop ((sortRecs [⟨0, 5⟩]).length - 1) ∧
    get_recent_customer_data_select [⟨0, 5⟩] 100 1 ≠ [] :=
  get_recent_fallback_nonempty [⟨0, 5⟩] 100 1 (by decide) (by decide) (by decide)

/-- C6 counterexample: with the Redis client unavailable the freshness check
reports a reason outside the claimed three-element set. -/
theorem freshness_reason_outside_enum :
    (check_model_freshness false none 0).reason = FreshReason.redisNotAvailable ∧
    FreshReason.redisNotAvailable ≠ FreshReason.noCachedModel ∧
    FreshReason.redisNotAvailable ≠ FreshReason.olderThan7Days ∧
    FreshReason.redisNotAvailable ≠ FreshReason.fresh :=
  ⟨rfl, by decide, by decide, by decide⟩

/-- C6 (amended): with Redis reachable the freshness check is a pure function
of the cached load timestamp and the current time: no cached record reports
needs_update with reason noCachedModel, a record more than 7 days old reports
needs_update with olderThan7Days, one at most 7 days old reports fresh, and
for reachable-Redis inputs with a parseable record the reason is always one
of these three; the two extra code paths (Redis unavailable, unparseable
record) both report needs_update = true. -/
theorem check_model_freshness_spec (now t : Int) (cached : Option (Option Int)) :
    check_model_freshness true none now = ⟨true, FreshReason.noCachedModel⟩ ∧
    (sevenDaysHours < now - t →
      check_model_freshness true (some (some t)) now =
        ⟨true, FreshReason.olderThan7Days⟩) ∧
    (now - t ≤ sevenDaysHours →
      check_model_freshness true (some (some t)) now = ⟨false, FreshReason.fresh⟩) ∧
    (cached ≠ some none →
      (check_model_freshness true cached now).reason = FreshReason.noCachedModel ∨
      (check_model_freshness true cached now).reason = FreshReason.olderThan7Days ∨
      (check_model_freshness true cached now).reason = FreshReason.fresh) ∧
    (check_model_freshness false cached now).needs_update = true ∧
    (check_model_freshness true (some none) now).needs_update = true := by
  refine ⟨rfl, fun h => ?_, fun h => ?_, fun h => ?_, rfl, rfl⟩
  · unfold check_model_freshness
    rw [if_neg (by simp)]
    dsimp only
    rw [if_pos h]
  · unfold check_model_freshness
    rw [if_neg (by simp)]
    dsimp only
    rw [if_neg (not_lt.mpr h)]
  · unfold check_model_freshness
    cases cached with
    | none => simp
    | some inner =>
      cases inner with
      | none => exact absurd rfl h
      | some t2 =>
        by_cases h2 : sevenDaysHours < now - t2
        · simp [h2]
        · simp [h2]

theorem check_model_freshness_spec_witness :
    check_model_freshness true (some (some 0)) (8 * 24) =
      ⟨true, FreshReason.olderThan7Days⟩ ∧
    check_model_freshness true (some (some 0)) (6 * 24) =
      ⟨false, FreshReason.fresh⟩ :=
  ⟨(check_model_freshness_spec (8 * 24) 0 none).2.1 (by decide),
   (check_model_freshness_spec (6 * 24) 0 none).2.2.1 (by decide)⟩

/-- Cache state with different bundles in the distributed and memory tiers. -/
def c2St : CacheState := ⟨true, some ⟨2, 2, none⟩, true, some ⟨1, 1, none⟩⟩

/-- A fully healthy cold-store environment. -/
def c2Env : S3Env := ⟨true, some ⟨"m", "e", none⟩, true, true, 0, true, true, 0, none⟩

/-- C2 counterexample: with bundle A in the memory tier and a different bundle
B in the distributed tier, the load returns B having consulted only the
distributed tier, so the memory tier is not consulted first. -/
theorem cache_order_counterexample :
    (load_customer_model "c" c2St c2Env).result = Except.ok ⟨2, 2, none⟩ ∧
    (load_customer_model "c" c2St c2Env).consulted = [Tier.distributed] ∧
    (⟨2, 2, none⟩ : Bundle) ≠ ⟨1, 1, none⟩ :=
  ⟨by decide, by decide, by decide⟩

/-- C2 (amended): the tiers are consulted distributed-first: a Redis hit
returns directly without populating the memory tier, a memory hit is only
reached on a Redis miss and short-circuits before the cold store, and the
cold store is consulted exactly when both tiers miss. -/
theorem cache_tier_order (cid : String) (st : CacheState) (env : S3Env) :
    (∀ b, st.redisAvailable = true → st.redisModel = some b →
      (load_customer_model cid st env).result = Except.ok b ∧
      (load_customer_model cid st env).consulted = [Tier.distributed] ∧
      (load_customer_model cid st env).memAfter = st.mem) ∧
    (∀ b, (st.redisAvailable = false ∨ st.redisModel = none) → st.mem = some b →
      (load_customer_model cid st env).result = Except.ok b ∧
      Tier.cold ∉ (load_customer_model cid st env).consulted) ∧
    ((st.redisAvailable = false ∨ st.redisModel = none) → st.mem = none →
      Tier.cold ∈ (load_customer_model cid st env).consulted) := by
  refine ⟨fun b hr hm => ?_, fun b hmiss hmem => ?_, fun hmiss hmem => ?_⟩
  · unfold load_customer_model
    rw [if_pos ⟨hr, by rw [hm]; rfl⟩]
    refine ⟨?_, rfl, rfl⟩
    rw [hm]
    rfl
  · have hcond : ¬(st.redisAvailable = true ∧ st.redisModel.isSome = true) := by
      rcases hmiss with h | h
      · intro hc
        rw [h] at hc
        exact absurd hc.1 (by simp)
      · intro hc
        rw [h] at hc
        exact absurd hc.2 (by simp)
    unfold load_customer_model
    rw [if_neg hcond, hmem]
    refine ⟨rfl, ?_⟩
    by_cases hra : st.redisAvailable = true <;> simp [hra]
  · have hcond : ¬(st.redisAvailable = true ∧ st.redisModel.isSome = true) := by
      rcases hmiss with h | h
      · intro hc
        rw [h] at hc
        exact absurd hc.1 (by simp)
      · intro hc
        rw [h] at hc
        exact absurd hc.2 (by simp)
    unfold load_customer_model
    rw [if_neg hcond, hmem]
    repeat' split
    all_goals simp_all

/-- Cache state with only a memory-tier bundle. -/
def c2StMem : CacheState := ⟨false, none, true, some ⟨1, 1, none⟩⟩

/-- Cache state with no cached bundle in either tier. -/
def c2StCold : CacheState := ⟨true, none, true, none⟩

theorem cache_tier_order_witness :
    ((load_customer_model "c" c2St c2Env).result = Except.ok ⟨2, 2, none⟩ ∧
      (load_customer_model "c" c2St c2Env).consulted = [Tier.distributed] ∧
      (load_customer_model "c" c2St c2Env).memAfter = c2St.mem) ∧
    ((load_customer_model "c" c2StMem c2Env).result = Except.ok ⟨1, 1, none⟩ ∧
      Tier.cold ∉ (load_customer_model "c" c2StMem c2Env).consulted) ∧
    Tier.cold ∈ (load_customer_model "c" c2StCold c2Env).consulted :=
  ⟨(cache_tier_order "c" c2St c2Env).1 ⟨2, 2, none⟩ rfl rfl,
   (cache_tier_order "c" c2StMem c2Env).2.1 ⟨1, 1, none⟩ (Or.inl rfl) rfl,
   (cache_tier_order "c" c2StCold c2Env).2.2 (Or.inr rfl) rfl⟩

/-- Cold-store environment where the encoders download fails after the model
file was already downloaded. -/
def c8Env : S3Env := ⟨true, some ⟨"m", "e", none⟩, true, true, 7, false, true, 9, none⟩

/-- Empty cache state forcing the cold path. -/
def c8St : CacheState := ⟨false, none, true, none⟩

/-- C8 counterexample: a cold load that fails after the model download leaves
the model temp file behind. -/
theorem cold_load_leaves_temp_on_failure :
    (load_customer_model "c" c8St c8Env).result = Except.error LoadErr.coldLoadFailed ∧
    (load_customer_model "c" c8St c8Env).tempFiles = [modelTmp "c"] ∧
    ([modelTmp "c"] : List String) ≠ [] :=
  ⟨by decide, by decide, by decide⟩

/-- C8 (amended): every load that returns a bundle leaves no temporary file
behind; loads that end in an exception may leave the files downloaded before
the failure. -/
theorem cold_load_cleanup_on_success (cid : String) (st : CacheState) (env : S3Env)
    (b : Bundle) (h : (load_customer_model cid st env).result = Except.ok b) :
    (load_customer_model cid st env).tempFiles = [] := by
  unfold load_customer_model at h ⊢
  revert h
  repeat' split
  all_goals intro h
  all_goals first
    | rfl
    | simp at h

theorem cold_load_cleanup_on_success_witness :
    (load_customer_model "c" c8St c2Env).result = Except.ok ⟨0, 0, none⟩ ∧
    (load_customer_model "c" c8St c2Env).tempFiles = [] :=
  ⟨by decide,
   cold_load_cleanup_on_success "c" c8St c2Env ⟨0, 0, none⟩ (by decide)⟩
